import Mathlib

/-!
# Front-matter extraction of `pkg/hugo/frontmatter.go`

A shallow embedding of the field-extraction layer of `pkg/hugo/frontmatter.go`
and theorems about it.

Modelling conventions.

* A Go `interface{}` stored in the front-matter mapping is a `Value`.
* The mapping `map[string]interface{}` is an association list read with
  `List.lookup`; `cfm.FrontMatter[k]` with `ok = false` is `none`.
* A Go function returning `(T, error)` returns a pair `T × Option Error`; the
  `nil` error is `none`. A nil slice and an empty slice are both `[]`.
* A run-time panic (the unguarded `arr[0]`) is the outer `none` of an `Option`.
* `time.Now()` is the parameter `now`; `time.Parse(time.RFC3339, ·)` is the
  parameter `timeParse`; the result of `pageparser.ParseFrontMatterAndContent`
  is the parameter `parsed`.
-/

namespace Hugo

/-- A `time.Time` value, identified by its instant. -/
structure Time where
  nsec : Int
  deriving DecidableEq, Repr

/-- The `*time.ParseError` returned by `time.Parse`: never an `*FMNotExistError`. -/
structure ParseError where
  msg : String
  deriving DecidableEq, Repr

/-- A loosely typed front-matter value: what a Go `interface{}` of the mapping can hold. -/
inductive Value where
  | str (s : String)
  | bool (b : Bool)
  | int (n : Int)
  | time (t : Time)
  | arr (items : List Value)
  | null
  deriving Repr

/-- Modelled from the spec: the error kinds of the package (`NotExist`, `InvalidType`), whose
declarations are not among the sources, together with the other `error` values that reach
`parseFrontMatter`: a `time.Parse` failure, a tokenizer failure, and `errors.New`. -/
inductive Error where
  | FMNotExistError (key : String)
  | FMInvalidTypeError (key : String) (expected : String) (actual : Value)
  | TimeParseError (e : ParseError)
  | TokenizerError (msg : String)
  | errorString (msg : String)
  deriving Repr

/-- Modelled from the spec: `NewFMNotExistError(key)` builds the `NotExist` error of a key. -/
def NewFMNotExistError (key : String) : Error := Error.FMNotExistError key

/-- Modelled from the spec: `NewFMInvalidTypeError(key, expected, actual)` builds the
`InvalidType` error of a key. -/
def NewFMInvalidTypeError (key expected : String) (actual : Value) : Error :=
  Error.FMInvalidTypeError key expected actual

def fmTitle : String := "title"
def fmAuthor : String := "author"
def fmCategories : String := "categories"
def fmTags : String := "tags"
def fmDate : String := "date"
def fmLastmod : String := "lastmod"
def fmPublishDate : String := "publishDate"

/-- The struct `FrontMatter`. -/
structure FrontMatter where
  Title : String
  Author : String
  Category : String
  Tags : List String
  Date : Time
  deriving DecidableEq, Repr

/-- The part of `pageparser.ContentFrontMatter` that the package reads. -/
structure ContentFrontMatter where
  FrontMatter : List (String × Value)
  deriving Repr

def getTime (now : Time) (timeParse : String → Time × Option ParseError)
    (cfm : ContentFrontMatter) (fmKey : String) : Time × Option Error :=
  match cfm.FrontMatter.lookup fmKey with
  | none => (now, some (NewFMNotExistError fmKey))
  | some (Value.str t) =>
    match timeParse t with
    | (r, none) => (r, none)
    | (r, some e) => (r, some (Error.TimeParseError e))
  | some (Value.time t) => (t, none)
  | some v => (now, some (NewFMInvalidTypeError fmKey "time.Time or string" v))

/-- The `for` loop of `getContentDate`: `none` when the loop ends without a `return`. -/
def getContentDateLoop (now : Time) (timeParse : String → Time × Option ParseError)
    (cfm : ContentFrontMatter) : List String → Option (Time × Option Error)
  | [] => none
  | key :: rest =>
    match getTime now timeParse cfm key with
    | (_, some (Error.FMNotExistError _)) => getContentDateLoop now timeParse cfm rest
    | (t, err) => some (t, err)

def getContentDate (now : Time) (timeParse : String → Time × Option ParseError)
    (cfm : ContentFrontMatter) : Time × Option Error :=
  match getContentDateLoop now timeParse cfm [fmDate, fmLastmod, fmPublishDate] with
  | some r => r
  | none => (now, some (NewFMNotExistError
      (String.intercalate ", " [fmDate, fmLastmod, fmPublishDate])))

def getString (cfm : ContentFrontMatter) (fmKey : String) : String × Option Error :=
  match cfm.FrontMatter.lookup fmKey with
  | none => ("", some (NewFMNotExistError fmKey))
  | some (Value.str s) =>
    if s = "" then ("", some (NewFMNotExistError fmKey)) else (s, none)
  | some v => ("", some (NewFMInvalidTypeError fmKey "string" v))

/-- The `for` loop of `getAllStringItems` over the remaining items, `strarr` being the
slice built so far: `Except.error` when the loop returns from the function. -/
def getAllStringItemsLoop (fmKey : String) : List Value → List String → Except Error (List String)
  | [], strarr => Except.ok strarr
  | Value.str s :: rest, strarr =>
    if s ≠ "" then getAllStringItemsLoop fmKey rest (strarr ++ [s])
    else getAllStringItemsLoop fmKey rest strarr
  | v :: _, _ => Except.error (NewFMInvalidTypeError fmKey "string" v)

def getAllStringItems (cfm : ContentFrontMatter) (fmKey : String) : List String × Option Error :=
  match cfm.FrontMatter.lookup fmKey with
  | none => ([], some (NewFMNotExistError fmKey))
  | some (Value.arr arr) =>
    match getAllStringItemsLoop fmKey arr [] with
    | Except.error e => ([], some e)
    | Except.ok strarr =>
      if strarr.length < 1 then ([], some (NewFMNotExistError fmKey)) else (strarr, none)
  | some v => ([], some (NewFMInvalidTypeError fmKey "[]interface\x7b\x7d" v))

/-- The outer `none` is the index-out-of-range panic of `arr[0]`. -/
def getFirstStringItem (cfm : ContentFrontMatter) (fmKey : String) :
    Option (String × Option Error) :=
  match getAllStringItems cfm fmKey with
  | (_, some err) => some ("", some err)
  | (arr, none) =>
    match arr with
    | [] => none
    | a :: _ => some (a, none)

def getBool (cfm : ContentFrontMatter) (fmKey : String) : Bool × Option Error :=
  match cfm.FrontMatter.lookup fmKey with
  | none => (false, some (NewFMNotExistError fmKey))
  | some (Value.bool b) => (b, none)
  | some v => (false, some (NewFMInvalidTypeError fmKey "bool" v))

def isArray (cfm : ContentFrontMatter) (fmKey : String) : Bool :=
  match cfm.FrontMatter.lookup fmKey with
  | some (Value.arr _) => true
  | _ => false

/-- The statements of `parseFrontMatter` from the category field on, `fm` holding the
title and the author already read. -/
def parseFrontMatterRest (now : Time) (timeParse : String → Time × Option ParseError)
    (cfm : ContentFrontMatter) (defaultFrontMatter : FrontMatter) (title author : String) :
    Option (Option FrontMatter × Option Error) :=
  match getFirstStringItem cfm fmCategories with
  | none => none
  | some r =>
    let category :=
      match r with
      | (_, some _) => defaultFrontMatter.Category
      | (category, none) => category
    let tags :=
      match getAllStringItems cfm fmTags with
      | (_, some _) => defaultFrontMatter.Tags
      | (tags, none) => tags
    let date :=
      match getContentDate now timeParse cfm with
      | (_, some _) => defaultFrontMatter.Date
      | (date, none) => date
    match getBool cfm "draft" with
    | (true, some _) => some (none, some (Error.errorString "this article is draft"))
    | _ => some (some ⟨title, author, category, tags, date⟩, none)

/-- The function `parseFrontMatter`, `parsed` being what
`pageparser.ParseFrontMatterAndContent(r)` returned; the outer `none` is a panic. -/
def parseFrontMatter (now : Time) (timeParse : String → Time × Option ParseError)
    (parsed : ContentFrontMatter × Option Error) (defaultFrontMatter : FrontMatter) :
    Option (Option FrontMatter × Option Error) :=
  match parsed with
  | (_, some err) => some (none, some err)
  | (cfm, none) =>
    let title :=
      match getString cfm fmTitle with
      | (_, some _) => defaultFrontMatter.Title
      | (title, none) => title
    if isArray cfm fmAuthor then
      match getFirstStringItem cfm fmAuthor with
      | none => none
      | some (_, some err) => some (none, some err)
      | some (author, none) =>
        parseFrontMatterRest now timeParse cfm defaultFrontMatter title author
    else
      let author :=
        match getString cfm fmAuthor with
        | (_, some _) => defaultFrontMatter.Author
        | (author, none) => author
      parseFrontMatterRest now timeParse cfm defaultFrontMatter title author

/-! ## Vocabulary of the statements -/

/-- Whether a value is a text (a Go `string`). -/
def Value.isStr : Value → Bool
  | Value.str _ => true
  | _ => false

/-- The non-empty texts of a sequence, in order. -/
def nonEmpty (strs : List String) : List String :=
  strs.filter (fun s => decide (s ≠ ""))

/-- The first element of a sequence that is not a text, if any. -/
def firstNonText (items : List Value) : Option Value :=
  items.find? (fun v => !v.isStr)

/-- The title that `parseFrontMatter` stores: what `getString` read, or the default. -/
def titleOf (cfm : ContentFrontMatter) (d : FrontMatter) : String :=
  match getString cfm fmTitle with
  | (_, some _) => d.Title
  | (title, none) => title

/-- The outcome of the author step of `parseFrontMatter`: the error it returns, or the author
it stores. -/
def authorOf (cfm : ContentFrontMatter) (d : FrontMatter) : Except Error String :=
  if isArray cfm fmAuthor then
    match getAllStringItems cfm fmAuthor with
    | (_, some err) => Except.error err
    | (arr, none) => Except.ok (arr.headD "")
  else
    match getString cfm fmAuthor with
    | (_, some _) => Except.ok d.Author
    | (author, none) => Except.ok author

/-- The category that `parseFrontMatter` stores. -/
def categoryOf (cfm : ContentFrontMatter) (d : FrontMatter) : String :=
  match getAllStringItems cfm fmCategories with
  | (_, some _) => d.Category
  | (arr, none) => arr.headD ""

/-- The tags that `parseFrontMatter` stores. -/
def tagsOf (cfm : ContentFrontMatter) (d : FrontMatter) : List String :=
  match getAllStringItems cfm fmTags with
  | (_, some _) => d.Tags
  | (tags, none) => tags

/-- The date that `parseFrontMatter` stores. -/
def dateOf (now : Time) (timeParse : String → Time × Option ParseError)
    (cfm : ContentFrontMatter) (d : FrontMatter) : Time :=
  match getContentDate now timeParse cfm with
  | (_, some _) => d.Date
  | (date, none) => date

/-- Whether a value is a timestamp (a Go `time.Time`). -/
def Value.isTime : Value → Bool
  | Value.time _ => true
  | _ => false

/-- The value of the first key of a list that is present in the mapping, with that key. -/
def firstPresent (cfm : ContentFrontMatter) : List String → Option (String × Value)
  | [] => none
  | k :: ks =>
    match cfm.FrontMatter.lookup k with
    | some v => some (k, v)
    | none => firstPresent cfm ks

/-- The highest-priority date key that is present, among date, lastmod and publishDate in
that order, and its value. -/
def firstDateValue (cfm : ContentFrontMatter) : Option (String × Value) :=
  firstPresent cfm [fmDate, fmLastmod, fmPublishDate]

/-- The mapping with a key removed. -/
def eraseKey (k : String) (cfm : ContentFrontMatter) : ContentFrontMatter :=
  ⟨cfm.FrontMatter.filter (fun p => p.1 != k)⟩

/-- The error that the draft branch of `parseFrontMatter` returns. -/
def draftError : Error := Error.errorString "this article is draft"

/-- The mapping with the three date keys removed. -/
def eraseDateKeys (cfm : ContentFrontMatter) : ContentFrontMatter :=
  eraseKey fmDate (eraseKey fmLastmod (eraseKey fmPublishDate cfm))

/-- A front matter with a usable author sequence, tags `["a", 5]` and `date: true`. -/
def sampleAuthorsBadTagsDate : ContentFrontMatter :=
  ⟨[("author", Value.arr [Value.str "Alice"]),
    ("tags", Value.arr [Value.str "a", Value.int 5]), ("date", Value.bool true)]⟩

/-! ## Sample inputs -/

/-- A stand-in for `time.Parse(time.RFC3339, ·)` on sample inputs: it reads three timestamps
and rejects every other text. -/
def sampleTimeParse (s : String) : Time × Option ParseError :=
  if s = "2020-01-01T00:00:00Z" then (⟨1577836800⟩, none)
  else if s = "2021-01-01T00:00:00Z" then (⟨1609459200⟩, none)
  else if s = "2022-06-15T00:00:00Z" then (⟨1655251200⟩, none)
  else (⟨0⟩, some ⟨"cannot parse"⟩)

/-- A sample clock value. -/
def sampleNow : Time := ⟨1700000000⟩

/-- A sample default bundle. -/
def sampleDefaults : FrontMatter :=
  ⟨"Default title", "Default author", "Default category", ["default"], ⟨946684800⟩⟩

/-- A complete front matter. -/
def sampleComplete : ContentFrontMatter :=
  ⟨[("title", Value.str "Hello"), ("author", Value.str "Alice"),
    ("categories", Value.arr [Value.str "", Value.str "news", Value.str "misc"]),
    ("tags", Value.arr [Value.str "go", Value.str "", Value.str "hugo"]),
    ("date", Value.time ⟨1577836800⟩), ("draft", Value.bool true)]⟩

/-- A front matter without a title. -/
def sampleNoTitle : ContentFrontMatter :=
  ⟨[("author", Value.str "Alice"), ("tags", Value.arr [Value.str "go"])]⟩

/-- A front matter whose author is the sequence `["Alice", "Bob"]`. -/
def sampleAuthors : ContentFrontMatter :=
  ⟨[("title", Value.str "Hello"), ("author", Value.arr [Value.str "Alice", Value.str "Bob"])]⟩

/-- A front matter whose author is the sequence `["", "Bob"]`. -/
def sampleAuthorsGap : ContentFrontMatter :=
  ⟨[("title", Value.str "Hello"), ("author", Value.arr [Value.str "", Value.str "Bob"])]⟩

/-- A front matter whose author sequence holds a number after a non-empty text. -/
def sampleAuthorsMixed : ContentFrontMatter :=
  ⟨[("title", Value.str "Hello"), ("author", Value.arr [Value.str "Alice", Value.int 5])]⟩

/-- A front matter whose author sequence holds only empty texts. -/
def sampleAuthorsEmpty : ContentFrontMatter :=
  ⟨[("title", Value.str "Hello"), ("author", Value.arr [Value.str "", Value.str ""])]⟩

/-- A front matter whose tags are `["a", 5]`. -/
def sampleTagsMixed : ContentFrontMatter :=
  ⟨[("title", Value.str "Hello"), ("tags", Value.arr [Value.str "a", Value.int 5])]⟩

/-- A front matter whose tags are `["go", "", "go"]`. -/
def sampleTagsDup : ContentFrontMatter :=
  ⟨[("title", Value.str "Hello"), ("tags", Value.arr [Value.str "go", Value.str "", Value.str "go"])]⟩

/-- A front matter with `date` (a text) and `lastmod` (a timestamp). -/
def sampleTwoDates : ContentFrontMatter :=
  ⟨[("date", Value.str "2020-01-01T00:00:00Z"), ("lastmod", Value.time ⟨1609459200⟩)]⟩

/-- A front matter with `publishDate` only. -/
def samplePublishOnly : ContentFrontMatter :=
  ⟨[("title", Value.str "Hello"), ("publishDate", Value.str "2022-06-15T00:00:00Z")]⟩

/-- A front matter whose `date` is a boolean, followed by a valid `lastmod`. -/
def sampleDateBool : ContentFrontMatter :=
  ⟨[("title", Value.str "Hello"), ("date", Value.bool true), ("lastmod", Value.time ⟨1609459200⟩)]⟩

/-- A front matter whose author is a number and whose categories are a scalar text. -/
def sampleScalars : ContentFrontMatter :=
  ⟨[("title", Value.str "Hello"), ("author", Value.int 7), ("categories", Value.str "news")]⟩

/-- A front matter whose `date` is a text that is not a timestamp, followed by a valid
`lastmod`. -/
def sampleDateUnparseable : ContentFrontMatter :=
  ⟨[("date", Value.str "yesterday"), ("lastmod", Value.time ⟨1609459200⟩)]⟩

/-- Another sample clock value. -/
def sampleLater : Time := ⟨1800000000⟩

/-! ## Lemmas on the helpers -/

theorem firstNonText_map_str (strs : List String) :
    firstNonText (strs.map Value.str) = none := by
  induction strs with
  | nil => rfl
  | cons s rest ih => simp [firstNonText, Value.isStr]

theorem firstNonText_of_mem (items : List Value) (v : Value) (hv : v ∈ items)
    (hs : v.isStr = false) : ∃ w, firstNonText items = some w ∧ w.isStr = false := by
  induction items with
  | nil => cases hv
  | cons x rest ih =>
    cases hx : x.isStr with
    | false => exact ⟨x, by simp [firstNonText, hx], hx⟩
    | true =>
      have hne : v ≠ x := fun h => by rw [h, hx] at hs; cases hs
      rcases List.mem_cons.mp hv with h | h
      · exact absurd h hne
      · obtain ⟨w, hw, hw2⟩ := ih h
        exact ⟨w, by simpa [firstNonText, hx] using hw, hw2⟩

theorem getAllStringItemsLoop_texts (fmKey : String) (strs : List String) (acc : List String) :
    getAllStringItemsLoop fmKey (strs.map Value.str) acc = Except.ok (acc ++ nonEmpty strs) := by
  induction strs generalizing acc with
  | nil => simp [getAllStringItemsLoop, nonEmpty]
  | cons s rest ih =>
    by_cases hs : s = ""
    · simp [getAllStringItemsLoop, nonEmpty, hs, ih]
    · simp [getAllStringItemsLoop, nonEmpty, hs, ih]

theorem getAllStringItemsLoop_nonText (fmKey : String) (items : List Value) (v : Value)
    (h : firstNonText items = some v) (acc : List String) :
    getAllStringItemsLoop fmKey items acc
      = Except.error (NewFMInvalidTypeError fmKey "string" v) := by
  induction items generalizing acc with
  | nil => simp [firstNonText] at h
  | cons x rest ih =>
    cases x with
    | str s =>
      have h2 : firstNonText rest = some v := by simpa [firstNonText, Value.isStr] using h
      by_cases hs : s = ""
      · simp [getAllStringItemsLoop, hs, ih h2]
      · simp [getAllStringItemsLoop, hs, ih h2]
    | bool b =>
      have : v = Value.bool b := by simpa [firstNonText, Value.isStr] using h.symm
      simp [getAllStringItemsLoop, this]
    | int n =>
      have : v = Value.int n := by simpa [firstNonText, Value.isStr] using h.symm
      simp [getAllStringItemsLoop, this]
    | time t =>
      have : v = Value.time t := by simpa [firstNonText, Value.isStr] using h.symm
      simp [getAllStringItemsLoop, this]
    | arr a =>
      have : v = Value.arr a := by simpa [firstNonText, Value.isStr] using h.symm
      simp [getAllStringItemsLoop, this]
    | null =>
      have : v = Value.null := by simpa [firstNonText, Value.isStr] using h.symm
      simp [getAllStringItemsLoop, this]

theorem getAllStringItems_texts (cfm : ContentFrontMatter) (fmKey : String) (strs : List String)
    (h : cfm.FrontMatter.lookup fmKey = some (Value.arr (strs.map Value.str))) :
    getAllStringItems cfm fmKey
      = if nonEmpty strs = [] then ([], some (NewFMNotExistError fmKey))
        else (nonEmpty strs, none) := by
  simp only [getAllStringItems, h, getAllStringItemsLoop_texts, List.nil_append]
  cases hn : nonEmpty strs <;> simp

theorem getAllStringItems_nonText (cfm : ContentFrontMatter) (fmKey : String)
    (items : List Value) (v : Value)
    (h : cfm.FrontMatter.lookup fmKey = some (Value.arr items))
    (hv : firstNonText items = some v) :
    getAllStringItems cfm fmKey = ([], some (NewFMInvalidTypeError fmKey "string" v)) := by
  simp only [getAllStringItems, h, getAllStringItemsLoop_nonText fmKey items v hv]

theorem getAllStringItems_absent (cfm : ContentFrontMatter) (fmKey : String)
    (h : cfm.FrontMatter.lookup fmKey = none) :
    getAllStringItems cfm fmKey = ([], some (NewFMNotExistError fmKey)) := by
  simp only [getAllStringItems, h]

/-- Whatever the mapping holds under `draft`, the draft branch is not taken. -/
theorem getBool_err_false (cfm : ContentFrontMatter) (fmKey : String) (e : Error) :
    getBool cfm fmKey ≠ (true, some e) := by
  unfold getBool
  split <;> simp

/-- A successful `getAllStringItems` returns at least one item. -/
theorem getAllStringItems_ok_ne_nil (cfm : ContentFrontMatter) (fmKey : String)
    (arr : List String) (h : getAllStringItems cfm fmKey = (arr, none)) : arr ≠ [] := by
  unfold getAllStringItems at h
  split at h
  · simp at h
  · split at h
    · simp at h
    · split at h
      · simp at h
      · rename_i strarr _ hlen
        simp only [Prod.mk.injEq, and_true] at h
        subst h
        intro h0
        simp [h0] at hlen
  · simp at h

/-- The index `arr[0]` of `getFirstStringItem` is in bounds: no panic. -/
theorem getFirstStringItem_eq (cfm : ContentFrontMatter) (fmKey : String) :
    getFirstStringItem cfm fmKey
      = some (match getAllStringItems cfm fmKey with
              | (_, some err) => ("", some err)
              | (arr, none) => (arr.headD "", none)) := by
  unfold getFirstStringItem
  split
  · rfl
  · rename_i arr h
    cases arr with
    | nil => exact absurd rfl (getAllStringItems_ok_ne_nil cfm fmKey [] h)
    | cons a rest => rfl

theorem parseFrontMatterRest_eq (now : Time) (timeParse : String → Time × Option ParseError)
    (cfm : ContentFrontMatter) (d : FrontMatter) (title author : String) :
    parseFrontMatterRest now timeParse cfm d title author
      = some (some ⟨title, author, categoryOf cfm d, tagsOf cfm d, dateOf now timeParse cfm d⟩,
          none) := by
  unfold parseFrontMatterRest categoryOf
  rw [getFirstStringItem_eq]
  rcases getAllStringItems cfm fmCategories with ⟨arr, _ | e⟩
  · simp only
    split
    · rename_i e h
      exact absurd h (getBool_err_false cfm "draft" e)
    · rfl
  · simp only
    split
    · rename_i e h
      exact absurd h (getBool_err_false cfm "draft" e)
    · rfl

/-- The result of `parseFrontMatter` after a successful tokenizer parse, field by field. -/
theorem parseFrontMatter_eq (now : Time) (timeParse : String → Time × Option ParseError)
    (cfm : ContentFrontMatter) (d : FrontMatter) :
    parseFrontMatter now timeParse (cfm, none) d
      = match authorOf cfm d with
        | Except.error err => some (none, some err)
        | Except.ok author =>
          some (some ⟨titleOf cfm d, author, categoryOf cfm d, tagsOf cfm d,
            dateOf now timeParse cfm d⟩, none) := by
  unfold parseFrontMatter authorOf titleOf
  simp only [parseFrontMatterRest_eq, getFirstStringItem_eq]
  by_cases ha : isArray cfm fmAuthor = true
  · simp only [ha, if_true]
    rcases getAllStringItems cfm fmAuthor with ⟨arr, _ | e⟩ <;> rfl
  · simp only [ha]
    rcases getString cfm fmAuthor with ⟨a, _ | e⟩ <;> rfl

theorem nonEmpty_of_find (strs : List String) (c : String)
    (h : strs.find? (fun s => decide (s ≠ "")) = some c) :
    ∃ rest, nonEmpty strs = c :: rest := by
  induction strs with
  | nil => simp at h
  | cons s rest ih =>
    by_cases hs : s = ""
    · have h2 : rest.find? (fun s => decide (s ≠ "")) = some c := by
        simpa [List.find?, hs] using h
      obtain ⟨r, hr⟩ := ih h2
      exact ⟨r, by simpa [nonEmpty, hs] using hr⟩
    · have h2 : s = c := by simpa [List.find?, hs] using h
      subst h2
      exact ⟨nonEmpty rest, by simp [nonEmpty, hs]⟩

theorem nonEmpty_ne_nil (strs : List String) (h : ∃ t ∈ strs, t ≠ "") : nonEmpty strs ≠ [] := by
  obtain ⟨t, ht, hne⟩ := h
  intro h0
  have : t ∈ nonEmpty strs := by simp [nonEmpty, ht, hne]
  rw [h0] at this
  cases this

theorem nonEmpty_eq_nil (strs : List String) (h : ∀ s ∈ strs, s = "") : nonEmpty strs = [] := by
  simp only [nonEmpty, List.filter_eq_nil_iff]
  intro s hs
  simp [h s hs]

/-! ### Each getter reads the mapping at its own key only -/

theorem getString_congr (cfm cfm' : ContentFrontMatter) (k : String)
    (h : cfm'.FrontMatter.lookup k = cfm.FrontMatter.lookup k) :
    getString cfm' k = getString cfm k := by
  unfold getString
  rw [h]

theorem getAllStringItems_congr (cfm cfm' : ContentFrontMatter) (k : String)
    (h : cfm'.FrontMatter.lookup k = cfm.FrontMatter.lookup k) :
    getAllStringItems cfm' k = getAllStringItems cfm k := by
  unfold getAllStringItems
  rw [h]

theorem isArray_congr (cfm cfm' : ContentFrontMatter) (k : String)
    (h : cfm'.FrontMatter.lookup k = cfm.FrontMatter.lookup k) :
    isArray cfm' k = isArray cfm k := by
  unfold isArray
  rw [h]

theorem getTime_congr (now : Time) (timeParse : String → Time × Option ParseError)
    (cfm cfm' : ContentFrontMatter) (k : String)
    (h : cfm'.FrontMatter.lookup k = cfm.FrontMatter.lookup k) :
    getTime now timeParse cfm' k = getTime now timeParse cfm k := by
  unfold getTime
  rw [h]

theorem getContentDate_congr (now : Time) (timeParse : String → Time × Option ParseError)
    (cfm cfm' : ContentFrontMatter)
    (h1 : cfm'.FrontMatter.lookup fmDate = cfm.FrontMatter.lookup fmDate)
    (h2 : cfm'.FrontMatter.lookup fmLastmod = cfm.FrontMatter.lookup fmLastmod)
    (h3 : cfm'.FrontMatter.lookup fmPublishDate = cfm.FrontMatter.lookup fmPublishDate) :
    getContentDate now timeParse cfm' = getContentDate now timeParse cfm := by
  simp only [getContentDate, getContentDateLoop, getTime_congr now timeParse cfm cfm' _ h1,
    getTime_congr now timeParse cfm cfm' _ h2, getTime_congr now timeParse cfm cfm' _ h3]

theorem authorOf_congr (cfm cfm' : ContentFrontMatter) (d : FrontMatter)
    (h : cfm'.FrontMatter.lookup fmAuthor = cfm.FrontMatter.lookup fmAuthor) :
    authorOf cfm' d = authorOf cfm d := by
  simp only [authorOf, isArray_congr cfm cfm' _ h, getAllStringItems_congr cfm cfm' _ h,
    getString_congr cfm cfm' _ h]

/-! ### The date search -/

theorem getContentDateLoop_absent (now : Time) (timeParse : String → Time × Option ParseError)
    (cfm : ContentFrontMatter) (k : String) (rest : List String)
    (h : cfm.FrontMatter.lookup k = none) :
    getContentDateLoop now timeParse cfm (k :: rest)
      = getContentDateLoop now timeParse cfm rest := by
  simp [getContentDateLoop, getTime, h, NewFMNotExistError]

theorem getContentDateLoop_present (now : Time) (timeParse : String → Time × Option ParseError)
    (cfm : ContentFrontMatter) (k : String) (rest : List String) (v : Value)
    (h : cfm.FrontMatter.lookup k = some v) :
    getContentDateLoop now timeParse cfm (k :: rest) = some (getTime now timeParse cfm k) := by
  cases v with
  | str s =>
    simp only [getContentDateLoop, getTime, h]
    rcases timeParse s with ⟨r, _ | e⟩ <;> rfl
  | bool b => simp [getContentDateLoop, getTime, h, NewFMInvalidTypeError]
  | int n => simp [getContentDateLoop, getTime, h, NewFMInvalidTypeError]
  | time t => simp [getContentDateLoop, getTime, h]
  | arr a => simp [getContentDateLoop, getTime, h, NewFMInvalidTypeError]
  | null => simp [getContentDateLoop, getTime, h, NewFMInvalidTypeError]

/-- The date search ends at the first key that is present, with what `getTime` returns. -/
theorem getContentDate_of_firstPresent (now : Time)
    (timeParse : String → Time × Option ParseError) (cfm : ContentFrontMatter)
    (k : String) (v : Value) (h : firstDateValue cfm = some (k, v)) :
    getContentDate now timeParse cfm = getTime now timeParse cfm k
      ∧ cfm.FrontMatter.lookup k = some v := by
  unfold firstDateValue firstPresent at h
  unfold getContentDate
  cases h1 : cfm.FrontMatter.lookup fmDate with
  | some v1 =>
    simp only [h1, Option.some.injEq, Prod.mk.injEq] at h
    obtain ⟨hk, hv⟩ := h
    subst hk hv
    exact ⟨by rw [getContentDateLoop_present now timeParse cfm _ _ _ h1], h1⟩
  | none =>
    rw [getContentDateLoop_absent now timeParse cfm _ _ h1]
    simp only [h1] at h
    unfold firstPresent at h
    cases h2 : cfm.FrontMatter.lookup fmLastmod with
    | some v2 =>
      simp only [h2, Option.some.injEq, Prod.mk.injEq] at h
      obtain ⟨hk, hv⟩ := h
      subst hk hv
      exact ⟨by rw [getContentDateLoop_present now timeParse cfm _ _ _ h2], h2⟩
    | none =>
      rw [getContentDateLoop_absent now timeParse cfm _ _ h2]
      simp only [h2] at h
      unfold firstPresent at h
      cases h3 : cfm.FrontMatter.lookup fmPublishDate with
      | some v3 =>
        simp only [h3, Option.some.injEq, Prod.mk.injEq] at h
        obtain ⟨hk, hv⟩ := h
        subst hk hv
        exact ⟨by rw [getContentDateLoop_present now timeParse cfm _ _ _ h3], h3⟩
      | none =>
        simp [h3, firstPresent] at h

/-! ### Removing a key -/

theorem lookup_filter_self (k : String) (m : List (String × Value)) :
    (m.filter (fun p => p.1 != k)).lookup k = none := by
  induction m with
  | nil => rfl
  | cons p rest ih =>
    obtain ⟨a, b⟩ := p
    rw [List.filter_cons]
    by_cases h : a = k
    · have hb : ((a, b).1 != k) = false := by simp [h]
      rw [hb]
      exact ih
    · have hb : ((a, b).1 != k) = true := by simp [h]
      have hk : (k == a) = false := by simpa using fun h2 : k = a => h h2.symm
      rw [hb]
      simp only [if_true, List.lookup, hk]
      exact ih

theorem lookup_filter_other (k k' : String) (m : List (String × Value)) (hne : k' ≠ k) :
    (m.filter (fun p => p.1 != k)).lookup k' = m.lookup k' := by
  induction m with
  | nil => rfl
  | cons p rest ih =>
    obtain ⟨a, b⟩ := p
    rw [List.filter_cons]
    by_cases h : a = k
    · have hb : ((a, b).1 != k) = false := by simp [h]
      have hk : (k' == a) = false := by simpa [h] using hne
      rw [hb]
      simp only [List.lookup, hk]
      exact ih
    · have hb : ((a, b).1 != k) = true := by simp [h]
      rw [hb]
      simp only [if_true, List.lookup]
      rw [ih]

theorem lookup_eraseKey_self (k : String) (cfm : ContentFrontMatter) :
    (eraseKey k cfm).FrontMatter.lookup k = none :=
  lookup_filter_self k cfm.FrontMatter

theorem lookup_eraseKey_other (k k' : String) (cfm : ContentFrontMatter) (hne : k' ≠ k) :
    (eraseKey k cfm).FrontMatter.lookup k' = cfm.FrontMatter.lookup k' :=
  lookup_filter_other k k' cfm.FrontMatter hne

/-! ### The result reads seven keys only -/

theorem parseFrontMatter_congr (now : Time) (timeParse : String → Time × Option ParseError)
    (cfm cfm' : ContentFrontMatter) (d : FrontMatter)
    (hT : cfm'.FrontMatter.lookup fmTitle = cfm.FrontMatter.lookup fmTitle)
    (hA : cfm'.FrontMatter.lookup fmAuthor = cfm.FrontMatter.lookup fmAuthor)
    (hC : cfm'.FrontMatter.lookup fmCategories = cfm.FrontMatter.lookup fmCategories)
    (hG : cfm'.FrontMatter.lookup fmTags = cfm.FrontMatter.lookup fmTags)
    (h1 : cfm'.FrontMatter.lookup fmDate = cfm.FrontMatter.lookup fmDate)
    (h2 : cfm'.FrontMatter.lookup fmLastmod = cfm.FrontMatter.lookup fmLastmod)
    (h3 : cfm'.FrontMatter.lookup fmPublishDate = cfm.FrontMatter.lookup fmPublishDate) :
    parseFrontMatter now timeParse (cfm', none) d
      = parseFrontMatter now timeParse (cfm, none) d := by
  simp only [parseFrontMatter_eq, authorOf_congr cfm cfm' d hA, titleOf, categoryOf, tagsOf,
    dateOf, getString_congr cfm cfm' _ hT, getAllStringItems_congr cfm cfm' _ hC,
    getAllStringItems_congr cfm cfm' _ hG, getContentDate_congr now timeParse cfm cfm' h1 h2 h3]

/-- The draft key is not among the keys the result depends on. -/
theorem parseFrontMatter_congr_off_draft (now : Time)
    (timeParse : String → Time × Option ParseError)
    (cfm cfm' : ContentFrontMatter) (d : FrontMatter)
    (h : ∀ k, k ≠ "draft" → cfm'.FrontMatter.lookup k = cfm.FrontMatter.lookup k) :
    parseFrontMatter now timeParse (cfm', none) d
      = parseFrontMatter now timeParse (cfm, none) d :=
  parseFrontMatter_congr now timeParse cfm cfm' d (h _ (by decide)) (h _ (by decide))
    (h _ (by decide)) (h _ (by decide)) (h _ (by decide)) (h _ (by decide)) (h _ (by decide))

/-- A result of `parseFrontMatter` is a record without error or an error without record,
the error being the one of the author step. -/
theorem parseFrontMatter_cases (now : Time) (timeParse : String → Time × Option ParseError)
    (cfm : ContentFrontMatter) (d : FrontMatter) :
    (∃ err, authorOf cfm d = Except.error err
        ∧ parseFrontMatter now timeParse (cfm, none) d = some (none, some err))
    ∨ (∃ a, authorOf cfm d = Except.ok a
        ∧ parseFrontMatter now timeParse (cfm, none) d
          = some (some ⟨titleOf cfm d, a, categoryOf cfm d, tagsOf cfm d,
              dateOf now timeParse cfm d⟩, none)) := by
  rw [parseFrontMatter_eq]
  cases ha : authorOf cfm d with
  | error err => exact Or.inl ⟨err, rfl, rfl⟩
  | ok a => exact Or.inr ⟨a, rfl, rfl⟩

/-! ### Items of a successful read -/

theorem getAllStringItemsLoop_ok_ne (fmKey : String) (items : List Value)
    (acc r : List String) (h : getAllStringItemsLoop fmKey items acc = Except.ok r)
    (hacc : ∀ s ∈ acc, s ≠ "") : ∀ s ∈ r, s ≠ "" := by
  induction items generalizing acc with
  | nil =>
    simp only [getAllStringItemsLoop, Except.ok.injEq] at h
    subst h
    exact hacc
  | cons x rest ih =>
    cases x with
    | str t =>
      by_cases ht : t = ""
      · simp only [getAllStringItemsLoop, ht, ne_eq, not_true_eq_false, if_false] at h
        exact ih acc h hacc
      · simp only [getAllStringItemsLoop, ne_eq, ht, not_false_eq_true, if_true] at h
        refine ih (acc ++ [t]) h ?_
        intro s hs
        rcases List.mem_append.mp hs with h1 | h1
        · exact hacc s h1
        · simp only [List.mem_singleton] at h1
          rw [h1]
          exact ht
    | bool b => simp [getAllStringItemsLoop] at h
    | int n => simp [getAllStringItemsLoop] at h
    | time t => simp [getAllStringItemsLoop] at h
    | arr a => simp [getAllStringItemsLoop] at h
    | null => simp [getAllStringItemsLoop] at h

theorem getAllStringItems_ok_ne (cfm : ContentFrontMatter) (fmKey : String)
    (arr : List String) (h : getAllStringItems cfm fmKey = (arr, none)) :
    ∀ s ∈ arr, s ≠ "" := by
  unfold getAllStringItems at h
  split at h
  · simp at h
  · split at h
    · simp at h
    · rename_i strarr hloop
      split at h
      · simp at h
      · simp only [Prod.mk.injEq, and_true] at h
        subst h
        exact getAllStringItemsLoop_ok_ne fmKey _ [] _ hloop (by simp)
  · simp at h

theorem all_texts_eq_map (items : List Value) (h : ∀ v ∈ items, v.isStr = true) :
    ∃ strs : List String, items = strs.map Value.str := by
  induction items with
  | nil => exact ⟨[], rfl⟩
  | cons x rest ih =>
    obtain ⟨strs, hs⟩ := ih (fun v hv => h v (List.mem_cons_of_mem _ hv))
    have hx := h x (List.mem_cons_self _ _)
    cases x with
    | str t => exact ⟨t :: strs, by simp [hs]⟩
    | bool b => simp [Value.isStr] at hx
    | int n => simp [Value.isStr] at hx
    | time t => simp [Value.isStr] at hx
    | arr a => simp [Value.isStr] at hx
    | null => simp [Value.isStr] at hx

/-! ### The date search without a present key, and the clock -/

theorem getContentDate_of_absent (now : Time) (timeParse : String → Time × Option ParseError)
    (cfm : ContentFrontMatter)
    (h1 : cfm.FrontMatter.lookup fmDate = none)
    (h2 : cfm.FrontMatter.lookup fmLastmod = none)
    (h3 : cfm.FrontMatter.lookup fmPublishDate = none) :
    getContentDate now timeParse cfm
      = (now, some (NewFMNotExistError "date, lastmod, publishDate")) := by
  unfold getContentDate
  rw [getContentDateLoop_absent now timeParse cfm _ _ h1,
    getContentDateLoop_absent now timeParse cfm _ _ h2,
    getContentDateLoop_absent now timeParse cfm _ _ h3]
  rfl

theorem firstDateValue_eq_none (cfm : ContentFrontMatter) (h : firstDateValue cfm = none) :
    cfm.FrontMatter.lookup fmDate = none ∧ cfm.FrontMatter.lookup fmLastmod = none
      ∧ cfm.FrontMatter.lookup fmPublishDate = none := by
  unfold firstDateValue firstPresent at h
  cases h1 : cfm.FrontMatter.lookup fmDate with
  | some v => simp [h1] at h
  | none =>
    simp only [h1] at h
    unfold firstPresent at h
    cases h2 : cfm.FrontMatter.lookup fmLastmod with
    | some v => simp [h2] at h
    | none =>
      simp only [h2] at h
      unfold firstPresent at h
      cases h3 : cfm.FrontMatter.lookup fmPublishDate with
      | some v => simp [h3] at h
      | none => exact ⟨rfl, rfl, rfl⟩

/-- The error of `getTime` does not depend on the clock, and neither does its value when
there is no error. -/
theorem getTime_clock (now now' : Time) (timeParse : String → Time × Option ParseError)
    (cfm : ContentFrontMatter) (k : String) :
    (getTime now timeParse cfm k).2 = (getTime now' timeParse cfm k).2
    ∧ ((getTime now timeParse cfm k).2 = none →
        getTime now' timeParse cfm k = getTime now timeParse cfm k) := by
  unfold getTime
  cases hl : cfm.FrontMatter.lookup k with
  | none => simp
  | some v => cases v <;> simp

theorem getContentDate_clock (now now' : Time) (timeParse : String → Time × Option ParseError)
    (cfm : ContentFrontMatter) :
    (getContentDate now timeParse cfm).2 = (getContentDate now' timeParse cfm).2
    ∧ ((getContentDate now timeParse cfm).2 = none →
        getContentDate now' timeParse cfm = getContentDate now timeParse cfm) := by
  cases hF : firstDateValue cfm with
  | none =>
    obtain ⟨h1, h2, h3⟩ := firstDateValue_eq_none cfm hF
    simp [getContentDate_of_absent _ timeParse cfm h1 h2 h3]
  | some kv =>
    obtain ⟨k, v⟩ := kv
    rw [(getContentDate_of_firstPresent now timeParse cfm k v hF).1,
      (getContentDate_of_firstPresent now' timeParse cfm k v hF).1]
    exact getTime_clock now now' timeParse cfm k

theorem dateOf_clock (now now' : Time) (timeParse : String → Time × Option ParseError)
    (cfm : ContentFrontMatter) (d : FrontMatter) :
    dateOf now timeParse cfm d = dateOf now' timeParse cfm d := by
  obtain ⟨herr, hval⟩ := getContentDate_clock now now' timeParse cfm
  unfold dateOf
  generalize getContentDate now timeParse cfm = r at herr hval ⊢
  generalize getContentDate now' timeParse cfm = r' at herr hval ⊢
  obtain ⟨t, _ | e⟩ := r
  · rw [hval rfl]
  · obtain ⟨t', _ | e'⟩ := r'
    · simp at herr
    · rfl

/-! ### When the author step fails -/

theorem isArray_eq_true (cfm : ContentFrontMatter) (k : String) :
    isArray cfm k = true ↔ ∃ items, cfm.FrontMatter.lookup k = some (Value.arr items) := by
  unfold isArray
  constructor
  · intro h
    split at h
    · rename_i items hl
      exact ⟨items, hl⟩
    · cases h
  · rintro ⟨items, hl⟩
    simp [hl]

theorem authorOf_error_iff (cfm : ContentFrontMatter) (d : FrontMatter) :
    (∃ err, authorOf cfm d = Except.error err) ↔
      ∃ items, cfm.FrontMatter.lookup fmAuthor = some (Value.arr items)
        ∧ ((∃ v ∈ items, v.isStr = false) ∨ (∀ s, Value.str s ∈ items → s = "")) := by
  constructor
  · rintro ⟨err, herr⟩
    unfold authorOf at herr
    by_cases hA : isArray cfm fmAuthor = true
    · obtain ⟨items, hl⟩ := (isArray_eq_true cfm fmAuthor).mp hA
      refine ⟨items, hl, ?_⟩
      by_cases hall : ∀ v ∈ items, v.isStr = true
      · right
        obtain ⟨strs, hs⟩ := all_texts_eq_map items hall
        subst hs
        rw [if_pos hA, getAllStringItems_texts cfm _ _ hl] at herr
        by_cases hn : nonEmpty strs = []
        · intro s hmem
          have hs : s ∈ strs := by simpa using hmem
          by_contra hne
          have : s ∈ nonEmpty strs := by simp [nonEmpty, hs, hne]
          rw [hn] at this
          cases this
        · simp [hn] at herr
      · left
        push_neg at hall
        obtain ⟨v, hv, hs⟩ := hall
        exact ⟨v, hv, by simpa using hs⟩
    · simp only [hA] at herr
      generalize getString cfm fmAuthor = r at herr
      obtain ⟨a, _ | e⟩ := r <;> simp at herr
  · rintro ⟨items, hl, hc⟩
    have hA : isArray cfm fmAuthor = true := (isArray_eq_true cfm fmAuthor).mpr ⟨items, hl⟩
    unfold authorOf
    rw [if_pos hA]
    by_cases hall : ∀ v ∈ items, v.isStr = true
    · rcases hc with ⟨v, hv, hs⟩ | hempty
      · rw [hall v hv] at hs
        cases hs
      · obtain ⟨strs, hs⟩ := all_texts_eq_map items hall
        subst hs
        have hn : nonEmpty strs = [] :=
          nonEmpty_eq_nil strs (fun s hs => hempty s (by simpa using hs))
        rw [getAllStringItems_texts cfm _ _ hl]
        simp [hn]
    · push_neg at hall
      obtain ⟨v, hv, hs⟩ := hall
      obtain ⟨w, hw, -⟩ := firstNonText_of_mem items v hv (by simpa using hs)
      rw [getAllStringItems_nonText cfm _ items w hl hw]
      exact ⟨_, rfl⟩

/-- An error of `getAllStringItems` is the NotExist or an InvalidType error of its key. -/
theorem getAllStringItems_error_kind (cfm : ContentFrontMatter) (k : String) (e : Error)
    (h : (getAllStringItems cfm k).2 = some e) :
    e = NewFMNotExistError k ∨ ∃ expected v, e = NewFMInvalidTypeError k expected v := by
  cases hl : cfm.FrontMatter.lookup k with
  | none =>
    rw [getAllStringItems_absent cfm k hl] at h
    exact Or.inl (by simpa using h.symm)
  | some v =>
    cases v with
    | arr items =>
      by_cases hall : ∀ v ∈ items, v.isStr = true
      · obtain ⟨strs, hs⟩ := all_texts_eq_map items hall
        subst hs
        rw [getAllStringItems_texts cfm _ _ hl] at h
        by_cases hn : nonEmpty strs = []
        · exact Or.inl (by simpa [hn] using h.symm)
        · simp [hn] at h
      · push_neg at hall
        obtain ⟨v, hv, hs⟩ := hall
        obtain ⟨w, hw, -⟩ := firstNonText_of_mem items v hv (by simpa using hs)
        rw [getAllStringItems_nonText cfm _ items w hl hw] at h
        exact Or.inr ⟨_, w, by simpa using h.symm⟩
    | str s => exact Or.inr ⟨_, _, by simpa [getAllStringItems, hl] using h.symm⟩
    | bool b => exact Or.inr ⟨_, _, by simpa [getAllStringItems, hl] using h.symm⟩
    | int n => exact Or.inr ⟨_, _, by simpa [getAllStringItems, hl] using h.symm⟩
    | time t => exact Or.inr ⟨_, _, by simpa [getAllStringItems, hl] using h.symm⟩
    | null => exact Or.inr ⟨_, _, by simpa [getAllStringItems, hl] using h.symm⟩

/-- An error of the author step is the NotExist or an InvalidType error of the author key. -/
theorem authorOf_error_kind (cfm : ContentFrontMatter) (d : FrontMatter) (e : Error)
    (h : authorOf cfm d = Except.error e) :
    e = NewFMNotExistError fmAuthor
      ∨ ∃ expected v, e = NewFMInvalidTypeError fmAuthor expected v := by
  unfold authorOf at h
  by_cases hA : isArray cfm fmAuthor = true
  · rw [if_pos hA] at h
    refine getAllStringItems_error_kind cfm fmAuthor e ?_
    generalize getAllStringItems cfm fmAuthor = r at h ⊢
    obtain ⟨arr, _ | err⟩ := r
    · simp at h
    · simpa using h
  · simp only [hA] at h
    generalize getString cfm fmAuthor = r at h
    obtain ⟨a, _ | err⟩ := r <;> simp at h

/-! ### Errors that reach the caller, and removed keys -/

/-- An error that `parseFrontMatter` returns after a successful tokenizer parse is the
NotExist or an InvalidType error of the author key. -/
theorem parseFrontMatter_error_kind (now : Time) (timeParse : String → Time × Option ParseError)
    (cfm : ContentFrontMatter) (d : FrontMatter) (r : Option FrontMatter) (err : Error)
    (h : parseFrontMatter now timeParse (cfm, none) d = some (r, some err)) :
    r = none ∧ (err = NewFMNotExistError fmAuthor
      ∨ ∃ expected v, err = NewFMInvalidTypeError fmAuthor expected v) := by
  rcases parseFrontMatter_cases now timeParse cfm d with ⟨e, ha, hp⟩ | ⟨a, -, hp⟩
  · rw [hp] at h
    simp only [Option.some.injEq, Prod.mk.injEq] at h
    obtain ⟨hr, he⟩ := h
    subst he
    exact ⟨hr.symm, authorOf_error_kind cfm d e ha⟩
  · rw [hp] at h
    simp at h

theorem firstDateValue_key (cfm : ContentFrontMatter) (k : String) (v : Value)
    (h : firstDateValue cfm = some (k, v)) :
    k = fmDate ∨ k = fmLastmod ∨ k = fmPublishDate := by
  unfold firstDateValue firstPresent at h
  cases h1 : cfm.FrontMatter.lookup fmDate with
  | some v1 =>
    simp only [h1, Option.some.injEq, Prod.mk.injEq] at h
    exact Or.inl h.1.symm
  | none =>
    simp only [h1] at h
    unfold firstPresent at h
    cases h2 : cfm.FrontMatter.lookup fmLastmod with
    | some v2 =>
      simp only [h2, Option.some.injEq, Prod.mk.injEq] at h
      exact Or.inr (Or.inl h.1.symm)
    | none =>
      simp only [h2] at h
      unfold firstPresent at h
      cases h3 : cfm.FrontMatter.lookup fmPublishDate with
      | some v3 =>
        simp only [h3, Option.some.injEq, Prod.mk.injEq] at h
        exact Or.inr (Or.inr h.1.symm)
      | none => simp [h3, firstPresent] at h

theorem lookup_eraseDateKeys_other (cfm : ContentFrontMatter) (k : String)
    (h1 : k ≠ fmDate) (h2 : k ≠ fmLastmod) (h3 : k ≠ fmPublishDate) :
    (eraseDateKeys cfm).FrontMatter.lookup k = cfm.FrontMatter.lookup k := by
  unfold eraseDateKeys
  rw [lookup_eraseKey_other _ _ _ h1, lookup_eraseKey_other _ _ _ h2,
    lookup_eraseKey_other _ _ _ h3]

theorem getContentDate_eraseDateKeys (now : Time)
    (timeParse : String → Time × Option ParseError) (cfm : ContentFrontMatter) :
    getContentDate now timeParse (eraseDateKeys cfm)
      = (now, some (NewFMNotExistError "date, lastmod, publishDate")) := by
  apply getContentDate_of_absent
  · exact lookup_eraseKey_self _ _
  · unfold eraseDateKeys
    rw [lookup_eraseKey_other _ _ _ (by decide)]
    exact lookup_eraseKey_self _ _
  · unfold eraseDateKeys
    rw [lookup_eraseKey_other _ _ _ (by decide), lookup_eraseKey_other _ _ _ (by decide)]
    exact lookup_eraseKey_self _ _

/-- When the tags read fails, the result is the one of the mapping without tags. -/
theorem parseFrontMatter_eraseKey_tags (now : Time)
    (timeParse : String → Time × Option ParseError)
    (cfm : ContentFrontMatter) (d : FrontMatter) (h : tagsOf cfm d = d.Tags) :
    parseFrontMatter now timeParse (cfm, none) d
      = parseFrontMatter now timeParse (eraseKey fmTags cfm, none) d := by
  have hk : ∀ k, k ≠ fmTags →
      (eraseKey fmTags cfm).FrontMatter.lookup k = cfm.FrontMatter.lookup k :=
    fun k hne => lookup_eraseKey_other fmTags k cfm hne
  have ht : tagsOf (eraseKey fmTags cfm) d = d.Tags := by
    simp [tagsOf, getAllStringItems_absent _ _ (lookup_eraseKey_self fmTags cfm)]
  rw [parseFrontMatter_eq, parseFrontMatter_eq, h, ht,
    authorOf_congr cfm _ d (hk _ (by decide))]
  simp only [titleOf, categoryOf, dateOf, getString_congr cfm _ _ (hk fmTitle (by decide)),
    getAllStringItems_congr cfm _ _ (hk fmCategories (by decide)),
    getContentDate_congr now timeParse cfm _ (hk fmDate (by decide))
      (hk fmLastmod (by decide)) (hk fmPublishDate (by decide))]

/-- When the date search fails, the result is the one of the mapping without date keys. -/
theorem parseFrontMatter_eraseDateKeys (now : Time)
    (timeParse : String → Time × Option ParseError)
    (cfm : ContentFrontMatter) (d : FrontMatter) (h : dateOf now timeParse cfm d = d.Date) :
    parseFrontMatter now timeParse (cfm, none) d
      = parseFrontMatter now timeParse (eraseDateKeys cfm, none) d := by
  have hk : ∀ k, k ≠ fmDate → k ≠ fmLastmod → k ≠ fmPublishDate →
      (eraseDateKeys cfm).FrontMatter.lookup k = cfm.FrontMatter.lookup k :=
    fun k => lookup_eraseDateKeys_other cfm k
  have hd : dateOf now timeParse (eraseDateKeys cfm) d = d.Date := by
    simp [dateOf, getContentDate_eraseDateKeys]
  rw [parseFrontMatter_eq, parseFrontMatter_eq, h, hd,
    authorOf_congr cfm _ d (hk _ (by decide) (by decide) (by decide))]
  simp only [titleOf, categoryOf, tagsOf,
    getString_congr cfm _ _ (hk fmTitle (by decide) (by decide) (by decide)),
    getAllStringItems_congr cfm _ _ (hk fmCategories (by decide) (by decide) (by decide)),
    getAllStringItems_congr cfm _ _ (hk fmTags (by decide) (by decide) (by decide))]

/-! ## The claims -/

/-- C1: when title and author are non-empty texts, categories and tags are sequences of
texts with a non-empty element and date is a timestamp, `parseFrontMatter` returns no error
and the record made of the title, the author, the first non-empty category `c`, the
non-empty tags in order and the date, whatever the default bundle is. -/
theorem C1_complete_front_matter (now : Time) (timeParse : String → Time × Option ParseError)
    (cfm : ContentFrontMatter) (d : FrontMatter) (title author c : String)
    (cats tags : List String) (date : Time)
    (hTitle : cfm.FrontMatter.lookup fmTitle = some (Value.str title)) (hTitleNe : title ≠ "")
    (hAuthor : cfm.FrontMatter.lookup fmAuthor = some (Value.str author))
    (hAuthorNe : author ≠ "")
    (hCats : cfm.FrontMatter.lookup fmCategories = some (Value.arr (cats.map Value.str)))
    (hCatsNe : cats.find? (fun s => decide (s ≠ "")) = some c)
    (hTags : cfm.FrontMatter.lookup fmTags = some (Value.arr (tags.map Value.str)))
    (hTagsNe : ∃ t ∈ tags, t ≠ "")
    (hDate : cfm.FrontMatter.lookup fmDate = some (Value.time date)) :
    parseFrontMatter now timeParse (cfm, none) d
      = some (some ⟨title, author, c, nonEmpty tags, date⟩, none) := by
  obtain ⟨rest, hrest⟩ := nonEmpty_of_find cats c hCatsNe
  have htags := nonEmpty_ne_nil tags hTagsNe
  rw [parseFrontMatter_eq]
  simp [authorOf, isArray, getString, hAuthor, hAuthorNe, titleOf, hTitle, hTitleNe,
    categoryOf, getAllStringItems_texts cfm _ _ hCats, hrest, tagsOf,
    getAllStringItems_texts cfm _ _ hTags, htags, dateOf, getContentDate, getContentDateLoop,
    getTime, hDate]

/-- Witness of C1 on a complete sample front matter. -/
theorem C1_complete_front_matter_witness :
    parseFrontMatter sampleNow sampleTimeParse (sampleComplete, none) sampleDefaults
      = some (some ⟨"Hello", "Alice", "news", ["go", "hugo"], ⟨1577836800⟩⟩, none) :=
  C1_complete_front_matter sampleNow sampleTimeParse sampleComplete sampleDefaults
    "Hello" "Alice" "news" ["", "news", "misc"] ["go", "", "hugo"] ⟨1577836800⟩
    rfl (by decide) rfl (by decide) rfl (by decide) rfl ⟨"go", by decide, by decide⟩ rfl

/-- C2: when `parseFrontMatter` returns a record, its Title is the title value if that is a
non-empty text, and is the Title of the default bundle if the title key is absent, holds
the empty text or holds a value that is not a text, which are the cases in which reading
the title fails; the returned error is nil, and the title value cannot cause one: a mapping
that differs at the title key only is given a record too. -/
theorem C2_title_or_default (now : Time) (timeParse : String → Time × Option ParseError)
    (cfm : ContentFrontMatter) (d fm : FrontMatter) (e : Option Error)
    (h : parseFrontMatter now timeParse (cfm, none) d = some (some fm, e)) :
    (∀ t, cfm.FrontMatter.lookup fmTitle = some (Value.str t) → t ≠ "" → fm.Title = t)
    ∧ (cfm.FrontMatter.lookup fmTitle = none
        ∨ cfm.FrontMatter.lookup fmTitle = some (Value.str "")
        ∨ (∃ v, cfm.FrontMatter.lookup fmTitle = some v ∧ v.isStr = false)
        → fm.Title = d.Title)
    ∧ ((getString cfm fmTitle).2 ≠ none ↔
        (cfm.FrontMatter.lookup fmTitle = none
          ∨ cfm.FrontMatter.lookup fmTitle = some (Value.str "")
          ∨ (∃ v, cfm.FrontMatter.lookup fmTitle = some v ∧ v.isStr = false)))
    ∧ e = none
    ∧ (∀ cfm' : ContentFrontMatter,
        (∀ k, k ≠ fmTitle → cfm'.FrontMatter.lookup k = cfm.FrontMatter.lookup k) →
        ∃ fm', parseFrontMatter now timeParse (cfm', none) d = some (some fm', none)) := by
  rw [parseFrontMatter_eq] at h
  cases ha : authorOf cfm d with
  | error err => simp [ha] at h
  | ok author =>
    simp only [ha, Option.some.injEq, Prod.mk.injEq] at h
    obtain ⟨hfm, he⟩ := h
    subst hfm
    refine ⟨?_, ?_, ?_, he.symm, ?_⟩
    · intro t ht hne
      simp [titleOf, getString, ht, hne]
    · rintro (h0 | h0 | ⟨v, h0, hv⟩)
      · simp [titleOf, getString, h0]
      · simp [titleOf, getString, h0]
      · cases v <;> simp [Value.isStr] at hv <;> simp [titleOf, getString, h0]
    · cases h0 : cfm.FrontMatter.lookup fmTitle with
      | none => simp [getString, h0]
      | some v =>
        cases v with
        | str s => by_cases hs : s = "" <;> simp [getString, h0, hs, Value.isStr]
        | bool b => simp [getString, h0, Value.isStr]
        | int n => simp [getString, h0, Value.isStr]
        | time t => simp [getString, h0, Value.isStr]
        | arr a => simp [getString, h0, Value.isStr]
        | null => simp [getString, h0, Value.isStr]
    · intro cfm' hk
      rw [parseFrontMatter_eq, authorOf_congr cfm cfm' d (hk fmAuthor (by decide)), ha]
      exact ⟨_, rfl⟩

/-- Witness of C2 on a front matter without a title: the default title is stored. -/
theorem C2_title_or_default_witness :
    parseFrontMatter sampleNow sampleTimeParse (sampleNoTitle, none) sampleDefaults
      = some (some ⟨"Default title", "Alice", "Default category", ["go"], ⟨946684800⟩⟩, none)
    ∧ (⟨"Default title", "Alice", "Default category", ["go"], ⟨946684800⟩⟩ : FrontMatter).Title
      = sampleDefaults.Title :=
  ⟨rfl, (C2_title_or_default sampleNow sampleTimeParse sampleNoTitle sampleDefaults
    ⟨"Default title", "Alice", "Default category", ["go"], ⟨946684800⟩⟩ none rfl).2.1
    (Or.inl rfl)⟩

/-- C3: when the author value is a sequence of texts whose first non-empty element is `a`,
`parseFrontMatter` returns a record whose Author is `a`, whatever the default bundle is. -/
theorem C3_author_first_non_empty (now : Time) (timeParse : String → Time × Option ParseError)
    (cfm : ContentFrontMatter) (d : FrontMatter) (strs : List String) (a : String)
    (hAuthor : cfm.FrontMatter.lookup fmAuthor = some (Value.arr (strs.map Value.str)))
    (hFirst : strs.find? (fun s => decide (s ≠ "")) = some a) :
    ∃ fm, parseFrontMatter now timeParse (cfm, none) d = some (some fm, none)
      ∧ fm.Author = a := by
  obtain ⟨rest, hrest⟩ := nonEmpty_of_find strs a hFirst
  rw [parseFrontMatter_eq]
  simp [authorOf, isArray, hAuthor, getAllStringItems_texts cfm _ _ hAuthor, hrest]

/-- Witness of C3: `["Alice", "Bob"]` gives `"Alice"` and `["", "Bob"]` gives `"Bob"`. -/
theorem C3_author_first_non_empty_witness :
    (∃ fm, parseFrontMatter sampleNow sampleTimeParse (sampleAuthors, none) sampleDefaults
        = some (some fm, none) ∧ fm.Author = "Alice")
    ∧ (∃ fm, parseFrontMatter sampleNow sampleTimeParse (sampleAuthorsGap, none) sampleDefaults
        = some (some fm, none) ∧ fm.Author = "Bob") :=
  ⟨C3_author_first_non_empty sampleNow sampleTimeParse sampleAuthors sampleDefaults
      ["Alice", "Bob"] "Alice" rfl rfl,
    C3_author_first_non_empty sampleNow sampleTimeParse sampleAuthorsGap sampleDefaults
      ["", "Bob"] "Bob" rfl rfl⟩

/-- C4: when the author value is a sequence, `parseFrontMatter` returns no record and (1) the
InvalidType error of the first element that is not a text if some element, wherever it
occurs, is not a text; (2) the NotExist error if all elements are texts and none is
non-empty. The default author is used in neither case. -/
theorem C4_author_sequence_errors (now : Time) (timeParse : String → Time × Option ParseError)
    (cfm : ContentFrontMatter) (d : FrontMatter) (items : List Value)
    (hAuthor : cfm.FrontMatter.lookup fmAuthor = some (Value.arr items)) :
    ((∃ v ∈ items, v.isStr = false) →
      ∃ w, firstNonText items = some w ∧ w.isStr = false ∧
        parseFrontMatter now timeParse (cfm, none) d
          = some (none, some (NewFMInvalidTypeError fmAuthor "string" w)))
    ∧ (∀ strs : List String, items = strs.map Value.str → (∀ s ∈ strs, s = "") →
        parseFrontMatter now timeParse (cfm, none) d
          = some (none, some (NewFMNotExistError fmAuthor))) := by
  constructor
  · rintro ⟨v, hv, hs⟩
    obtain ⟨w, hw, hw2⟩ := firstNonText_of_mem items v hv hs
    refine ⟨w, hw, hw2, ?_⟩
    rw [parseFrontMatter_eq]
    simp [authorOf, isArray, hAuthor, getAllStringItems_nonText cfm _ items w hAuthor hw]
  · intro strs hitems hall
    subst hitems
    rw [parseFrontMatter_eq]
    simp [authorOf, isArray, hAuthor, getAllStringItems_texts cfm _ _ hAuthor,
      nonEmpty_eq_nil strs hall]

/-- Witness of C4: `["Alice", 5]` gives the InvalidType error of `5`, and `["", ""]` gives
the NotExist error. -/
theorem C4_author_sequence_errors_witness :
    (∃ w, firstNonText [Value.str "Alice", Value.int 5] = some w ∧ w.isStr = false ∧
      parseFrontMatter sampleNow sampleTimeParse (sampleAuthorsMixed, none) sampleDefaults
        = some (none, some (NewFMInvalidTypeError fmAuthor "string" w)))
    ∧ parseFrontMatter sampleNow sampleTimeParse (sampleAuthorsEmpty, none) sampleDefaults
        = some (none, some (NewFMNotExistError fmAuthor)) :=
  ⟨(C4_author_sequence_errors sampleNow sampleTimeParse sampleAuthorsMixed sampleDefaults
      [Value.str "Alice", Value.int 5] rfl).1 ⟨Value.int 5, by simp, rfl⟩,
    (C4_author_sequence_errors sampleNow sampleTimeParse sampleAuthorsEmpty sampleDefaults
      [Value.str "", Value.str ""] rfl).2 ["", ""] rfl (by simp)⟩

/-- C5, as stated, fails: with tags `["a", 5]` the caller gets a record and no error. -/
theorem C5_counterexample :
    sampleTagsMixed.FrontMatter.lookup fmTags = some (Value.arr [Value.str "a", Value.int 5])
    ∧ parseFrontMatter sampleNow sampleTimeParse (sampleTagsMixed, none) sampleDefaults
      = some (some ⟨"Hello", "Default author", "Default category", ["default"], ⟨946684800⟩⟩,
          none) :=
  ⟨rfl, rfl⟩

/-- C5, amended: when tags is a sequence with an element that is not a text,
`getAllStringItems` returns the InvalidType error of the first such element and no partial
list; `parseFrontMatter` does not return that error: a record it returns has the Tags of the
default bundle, it returns a record whenever the author value is not a sequence, an error it
returns comes without a record and is an error of the author key, never an InvalidType error
of the tags key, and its result is the one of the mapping without the tags key. -/
theorem C5_tags_non_text_defaulted (now : Time) (timeParse : String → Time × Option ParseError)
    (cfm : ContentFrontMatter) (d : FrontMatter) (items : List Value)
    (hTags : cfm.FrontMatter.lookup fmTags = some (Value.arr items))
    (hNonText : ∃ v ∈ items, v.isStr = false) :
    (∃ w, firstNonText items = some w ∧ w.isStr = false ∧
      getAllStringItems cfm fmTags = ([], some (NewFMInvalidTypeError fmTags "string" w)))
    ∧ (∀ fm e, parseFrontMatter now timeParse (cfm, none) d = some (some fm, e) →
        fm.Tags = d.Tags ∧ e = none)
    ∧ (isArray cfm fmAuthor = false →
        ∃ fm, parseFrontMatter now timeParse (cfm, none) d = some (some fm, none)
          ∧ fm.Tags = d.Tags)
    ∧ (∀ (r : Option FrontMatter) (err : Error),
        parseFrontMatter now timeParse (cfm, none) d = some (r, some err) →
        r = none
        ∧ (err = NewFMNotExistError fmAuthor
            ∨ ∃ expected v, err = NewFMInvalidTypeError fmAuthor expected v)
        ∧ ∀ expected v, err ≠ NewFMInvalidTypeError fmTags expected v)
    ∧ parseFrontMatter now timeParse (cfm, none) d
        = parseFrontMatter now timeParse (eraseKey fmTags cfm, none) d := by
  obtain ⟨v, hv, hs⟩ := hNonText
  obtain ⟨w, hw, hw2⟩ := firstNonText_of_mem items v hv hs
  have hget := getAllStringItems_nonText cfm fmTags items w hTags hw
  have htags : tagsOf cfm d = d.Tags := by simp [tagsOf, hget]
  refine ⟨⟨w, hw, hw2, hget⟩, ?_, ?_, ?_, parseFrontMatter_eraseKey_tags now timeParse cfm d htags⟩
  · intro fm e h
    rw [parseFrontMatter_eq] at h
    cases ha : authorOf cfm d with
    | error err => simp [ha] at h
    | ok author =>
      simp only [ha, Option.some.injEq, Prod.mk.injEq] at h
      obtain ⟨hfm, he⟩ := h
      subst hfm
      exact ⟨htags, he.symm⟩
  · intro hArr
    rw [parseFrontMatter_eq]
    unfold authorOf
    simp only [hArr]
    rcases getString cfm fmAuthor with ⟨a, _ | e⟩
    · exact ⟨_, rfl, htags⟩
    · exact ⟨_, rfl, htags⟩
  · intro r err h
    obtain ⟨hr, hkind⟩ := parseFrontMatter_error_kind now timeParse cfm d r err h
    refine ⟨hr, hkind, ?_⟩
    intro expected v' heq
    subst heq
    rcases hkind with h1 | ⟨ex, v2, h1⟩
    · simp [NewFMInvalidTypeError, NewFMNotExistError] at h1
    · simp only [NewFMInvalidTypeError, Error.FMInvalidTypeError.injEq] at h1
      exact absurd h1.1 (by decide)

/-- Witness of the amended C5: tags `["a", 5]` give the default Tags and no error, with an
absent author and with the author sequence `["Alice"]` alike. -/
theorem C5_tags_non_text_defaulted_witness :
    (∃ fm, parseFrontMatter sampleNow sampleTimeParse (sampleTagsMixed, none) sampleDefaults
        = some (some fm, none) ∧ fm.Tags = sampleDefaults.Tags)
    ∧ parseFrontMatter sampleNow sampleTimeParse (sampleAuthorsBadTagsDate, none) sampleDefaults
        = some (some ⟨"Default title", "Alice", "Default category", ["default"],
            ⟨946684800⟩⟩, none)
    ∧ (⟨"Default title", "Alice", "Default category", ["default"], ⟨946684800⟩⟩
        : FrontMatter).Tags = sampleDefaults.Tags :=
  ⟨(C5_tags_non_text_defaulted sampleNow sampleTimeParse sampleTagsMixed sampleDefaults
      [Value.str "a", Value.int 5] rfl ⟨Value.int 5, by simp, rfl⟩).2.2.1 rfl,
    rfl,
    ((C5_tags_non_text_defaulted sampleNow sampleTimeParse sampleAuthorsBadTagsDate
      sampleDefaults [Value.str "a", Value.int 5] rfl ⟨Value.int 5, by simp, rfl⟩).2.1
      ⟨"Default title", "Alice", "Default category", ["default"], ⟨946684800⟩⟩ none rfl).1⟩

/-- C6: when `parseFrontMatter` returns a record and tags is a sequence of texts, the Tags of
the record are the non-empty elements in their order if there is one, and the Tags of the
default bundle if there is none; they are also the default Tags if the tags key is absent. -/
theorem C6_tags_non_empty_or_default (now : Time)
    (timeParse : String → Time × Option ParseError)
    (cfm : ContentFrontMatter) (d fm : FrontMatter) (e : Option Error)
    (h : parseFrontMatter now timeParse (cfm, none) d = some (some fm, e)) :
    (∀ strs : List String, cfm.FrontMatter.lookup fmTags = some (Value.arr (strs.map Value.str)) →
        (nonEmpty strs ≠ [] → fm.Tags = nonEmpty strs)
        ∧ (nonEmpty strs = [] → fm.Tags = d.Tags))
    ∧ (cfm.FrontMatter.lookup fmTags = none → fm.Tags = d.Tags) := by
  rw [parseFrontMatter_eq] at h
  cases ha : authorOf cfm d with
  | error err => simp [ha] at h
  | ok author =>
    simp only [ha, Option.some.injEq, Prod.mk.injEq] at h
    obtain ⟨hfm, -⟩ := h
    subst hfm
    refine ⟨fun strs hT => ⟨fun hne => ?_, fun hnil => ?_⟩, fun hT => ?_⟩
    · simp [tagsOf, getAllStringItems_texts cfm _ _ hT, hne]
    · simp [tagsOf, getAllStringItems_texts cfm _ _ hT, hnil]
    · simp [tagsOf, getAllStringItems_absent cfm _ hT]

/-- Witness of C6 on tags `["go", "", "hugo"]`. -/
theorem C6_tags_non_empty_or_default_witness :
    parseFrontMatter sampleNow sampleTimeParse (sampleComplete, none) sampleDefaults
      = some (some ⟨"Hello", "Alice", "news", ["go", "hugo"], ⟨1577836800⟩⟩, none)
    ∧ (⟨"Hello", "Alice", "news", ["go", "hugo"], ⟨1577836800⟩⟩ : FrontMatter).Tags
      = nonEmpty ["go", "", "hugo"] :=
  ⟨rfl, ((C6_tags_non_empty_or_default sampleNow sampleTimeParse sampleComplete sampleDefaults
    ⟨"Hello", "Alice", "news", ["go", "hugo"], ⟨1577836800⟩⟩ none rfl).1
      ["go", "", "hugo"] rfl).1 (by decide)⟩

/-- C7, as stated, fails: with tags `["go", "", "go"]` the record holds `"go"` twice. -/
theorem C7_counterexample :
    parseFrontMatter sampleNow sampleTimeParse (sampleTagsDup, none) sampleDefaults
      = some (some ⟨"Hello", "Default author", "Default category", ["go", "go"],
          ⟨946684800⟩⟩, none)
    ∧ ¬ (["go", "go"] : List String).Nodup :=
  ⟨rfl, by decide⟩

/-- C7, amended: when tags is a sequence of texts with a non-empty element, the Tags of a
returned record hold no empty entry; they are the non-empty elements of the sequence, each as
many times as it occurs there (duplicates are kept). -/
theorem C7_tags_no_empty_entry (now : Time) (timeParse : String → Time × Option ParseError)
    (cfm : ContentFrontMatter) (d fm : FrontMatter) (e : Option Error) (strs : List String)
    (hTags : cfm.FrontMatter.lookup fmTags = some (Value.arr (strs.map Value.str)))
    (hNe : ∃ t ∈ strs, t ≠ "")
    (h : parseFrontMatter now timeParse (cfm, none) d = some (some fm, e)) :
    (∀ t ∈ fm.Tags, t ≠ "")
    ∧ fm.Tags = nonEmpty strs
    ∧ (∀ t, t ≠ "" → fm.Tags.count t = strs.count t) := by
  have hne := nonEmpty_ne_nil strs hNe
  rw [parseFrontMatter_eq] at h
  cases ha : authorOf cfm d with
  | error err => simp [ha] at h
  | ok author =>
    simp only [ha, Option.some.injEq, Prod.mk.injEq] at h
    obtain ⟨hfm, -⟩ := h
    have ht : fm.Tags = nonEmpty strs := by
      rw [← hfm]
      simp [tagsOf, getAllStringItems_texts cfm _ _ hTags, hne]
    rw [ht]
    refine ⟨?_, rfl, ?_⟩
    · intro t hmem
      simpa [nonEmpty] using (List.mem_filter.mp hmem).2
    · intro t htne
      unfold nonEmpty
      rw [List.count_filter]
      simpa using htne

/-- Witness of the amended C7 on tags `["go", "", "go"]`. -/
theorem C7_tags_no_empty_entry_witness :
    parseFrontMatter sampleNow sampleTimeParse (sampleTagsDup, none) sampleDefaults
      = some (some ⟨"Hello", "Default author", "Default category", ["go", "go"],
          ⟨946684800⟩⟩, none)
    ∧ (∀ t ∈ (["go", "go"] : List String), t ≠ "") :=
  ⟨rfl, (C7_tags_no_empty_entry sampleNow sampleTimeParse sampleTagsDup sampleDefaults
    ⟨"Hello", "Default author", "Default category", ["go", "go"], ⟨946684800⟩⟩ none
    ["go", "", "go"] rfl ⟨"go", by decide, by decide⟩ rfl).1⟩

/-- C8: when `parseFrontMatter` returns a record, and the first present key among date,
lastmod and publishDate holds a timestamp `t` or a text that `time.Parse` reads as `t`, the
Date of the record is `t`. -/
theorem C8_date_priority (now : Time) (timeParse : String → Time × Option ParseError)
    (cfm : ContentFrontMatter) (d fm : FrontMatter) (e : Option Error)
    (k : String) (v : Value) (t : Time)
    (h : parseFrontMatter now timeParse (cfm, none) d = some (some fm, e))
    (hFirst : firstDateValue cfm = some (k, v))
    (hValid : v = Value.time t ∨ ∃ s, v = Value.str s ∧ timeParse s = (t, none)) :
    fm.Date = t := by
  obtain ⟨hget, hk⟩ := getContentDate_of_firstPresent now timeParse cfm k v hFirst
  rw [parseFrontMatter_eq] at h
  cases ha : authorOf cfm d with
  | error err => simp [ha] at h
  | ok author =>
    simp only [ha, Option.some.injEq, Prod.mk.injEq] at h
    obtain ⟨hfm, -⟩ := h
    rw [← hfm]
    rcases hValid with hv | ⟨s, hv, hp⟩
    · subst hv
      simp [dateOf, hget, getTime, hk]
    · subst hv
      simp [dateOf, hget, getTime, hk, hp]

/-- Witness of C8: with `date` and `lastmod` both valid the Date is the date value, and with
`publishDate` only it is the publishDate value. -/
theorem C8_date_priority_witness :
    (parseFrontMatter sampleNow sampleTimeParse (sampleTwoDates, none) sampleDefaults
        = some (some ⟨"Default title", "Default author", "Default category", ["default"],
            ⟨1577836800⟩⟩, none)
      ∧ (⟨"Default title", "Default author", "Default category", ["default"], ⟨1577836800⟩⟩
        : FrontMatter).Date = ⟨1577836800⟩)
    ∧ (parseFrontMatter sampleNow sampleTimeParse (samplePublishOnly, none) sampleDefaults
        = some (some ⟨"Hello", "Default author", "Default category", ["default"],
            ⟨1655251200⟩⟩, none)
      ∧ (⟨"Hello", "Default author", "Default category", ["default"], ⟨1655251200⟩⟩
        : FrontMatter).Date = ⟨1655251200⟩) :=
  ⟨⟨rfl, C8_date_priority sampleNow sampleTimeParse sampleTwoDates sampleDefaults
      ⟨"Default title", "Default author", "Default category", ["default"], ⟨1577836800⟩⟩ none
      "date" (Value.str "2020-01-01T00:00:00Z") ⟨1577836800⟩ rfl rfl
      (Or.inr ⟨"2020-01-01T00:00:00Z", rfl, rfl⟩)⟩,
    ⟨rfl, C8_date_priority sampleNow sampleTimeParse samplePublishOnly sampleDefaults
      ⟨"Hello", "Default author", "Default category", ["default"], ⟨1655251200⟩⟩ none
      "publishDate" (Value.str "2022-06-15T00:00:00Z") ⟨1655251200⟩ rfl rfl
      (Or.inr ⟨"2022-06-15T00:00:00Z", rfl, rfl⟩)⟩⟩

/-- C9, as stated, fails: with `date: true` the caller gets a record and no error. -/
theorem C9_counterexample :
    firstDateValue sampleDateBool = some ("date", Value.bool true)
    ∧ parseFrontMatter sampleNow sampleTimeParse (sampleDateBool, none) sampleDefaults
      = some (some ⟨"Hello", "Default author", "Default category", ["default"], ⟨946684800⟩⟩,
          none) :=
  ⟨rfl, rfl⟩

/-- C9, amended: when the first present key `k` among date, lastmod and publishDate holds a
value that is neither a timestamp nor a text, `getContentDate` returns the InvalidType error
of `k`; `parseFrontMatter` does not return that error: a record it returns has the Date of
the default bundle, it returns a record whenever the author value is not a sequence, an error
it returns comes without a record and is an error of the author key, never an InvalidType
error of `k`, and its result is the one of the mapping without the three date keys. -/
theorem C9_date_invalid_type_defaulted (now : Time)
    (timeParse : String → Time × Option ParseError)
    (cfm : ContentFrontMatter) (d : FrontMatter) (k : String) (v : Value)
    (hFirst : firstDateValue cfm = some (k, v))
    (hNotText : v.isStr = false) (hNotTime : v.isTime = false) :
    getContentDate now timeParse cfm
      = (now, some (NewFMInvalidTypeError k "time.Time or string" v))
    ∧ (∀ fm e, parseFrontMatter now timeParse (cfm, none) d = some (some fm, e) →
        fm.Date = d.Date ∧ e = none)
    ∧ (isArray cfm fmAuthor = false →
        ∃ fm, parseFrontMatter now timeParse (cfm, none) d = some (some fm, none)
          ∧ fm.Date = d.Date)
    ∧ (∀ (r : Option FrontMatter) (err : Error),
        parseFrontMatter now timeParse (cfm, none) d = some (r, some err) →
        r = none
        ∧ (err = NewFMNotExistError fmAuthor
            ∨ ∃ expected w, err = NewFMInvalidTypeError fmAuthor expected w)
        ∧ ∀ expected w, err ≠ NewFMInvalidTypeError k expected w)
    ∧ parseFrontMatter now timeParse (cfm, none) d
        = parseFrontMatter now timeParse (eraseDateKeys cfm, none) d := by
  obtain ⟨hget, hk⟩ := getContentDate_of_firstPresent now timeParse cfm k v hFirst
  have hdate : getContentDate now timeParse cfm
      = (now, some (NewFMInvalidTypeError k "time.Time or string" v)) := by
    rw [hget]
    cases v <;> simp [Value.isStr, Value.isTime] at hNotText hNotTime <;> simp [getTime, hk]
  have hd : dateOf now timeParse cfm d = d.Date := by simp [dateOf, hdate]
  refine ⟨hdate, ?_, ?_, ?_, parseFrontMatter_eraseDateKeys now timeParse cfm d hd⟩
  · intro fm e h
    rw [parseFrontMatter_eq] at h
    cases ha : authorOf cfm d with
    | error err => simp [ha] at h
    | ok author =>
      simp only [ha, Option.some.injEq, Prod.mk.injEq] at h
      obtain ⟨hfm, he⟩ := h
      subst hfm
      exact ⟨hd, he.symm⟩
  · intro hArr
    rw [parseFrontMatter_eq]
    unfold authorOf
    simp only [hArr]
    rcases getString cfm fmAuthor with ⟨a, _ | e⟩
    · exact ⟨_, rfl, hd⟩
    · exact ⟨_, rfl, hd⟩
  · intro r err h
    obtain ⟨hr, hkind⟩ := parseFrontMatter_error_kind now timeParse cfm d r err h
    refine ⟨hr, hkind, ?_⟩
    intro expected w heq
    subst heq
    have hne : k ≠ fmAuthor := by
      rcases firstDateValue_key cfm k v hFirst with h1 | h1 | h1 <;> rw [h1] <;> decide
    rcases hkind with h1 | ⟨ex, v2, h1⟩
    · simp [NewFMInvalidTypeError, NewFMNotExistError] at h1
    · simp only [NewFMInvalidTypeError, Error.FMInvalidTypeError.injEq] at h1
      exact absurd h1.1 hne

/-- Witness of the amended C9: `date: true` gives the default Date and no error, with an
absent author and with the author sequence `["Alice"]` alike. -/
theorem C9_date_invalid_type_defaulted_witness :
    getContentDate sampleNow sampleTimeParse sampleDateBool
      = (sampleNow, some (NewFMInvalidTypeError "date" "time.Time or string" (Value.bool true)))
    ∧ (∃ fm, parseFrontMatter sampleNow sampleTimeParse (sampleDateBool, none) sampleDefaults
        = some (some fm, none) ∧ fm.Date = sampleDefaults.Date)
    ∧ parseFrontMatter sampleNow sampleTimeParse (sampleAuthorsBadTagsDate, none) sampleDefaults
        = some (some ⟨"Default title", "Alice", "Default category", ["default"],
            ⟨946684800⟩⟩, none)
    ∧ (⟨"Default title", "Alice", "Default category", ["default"], ⟨946684800⟩⟩
        : FrontMatter).Date = sampleDefaults.Date :=
  have hc := C9_date_invalid_type_defaulted sampleNow sampleTimeParse sampleDateBool
    sampleDefaults "date" (Value.bool true) rfl rfl rfl
  ⟨hc.1, hc.2.2.1 rfl, rfl,
    ((C9_date_invalid_type_defaulted sampleNow sampleTimeParse sampleAuthorsBadTagsDate
      sampleDefaults "date" (Value.bool true) rfl rfl rfl).2.1
      ⟨"Default title", "Alice", "Default category", ["default"], ⟨946684800⟩⟩ none rfl).1⟩

/-- C10: on an empty front-matter mapping `parseFrontMatter` returns no error and the
default bundle itself, field by field. -/
theorem C10_empty_mapping_returns_defaults (now : Time)
    (timeParse : String → Time × Option ParseError) (d : FrontMatter) :
    parseFrontMatter now timeParse (⟨[]⟩, none) d = some (some d, none) :=
  rfl

/-- C11: when draft is the boolean true, `getBool` reads it without error, so the draft
branch is not taken: if the mapping without its draft key gives a record, the mapping gives
the same record and no error. -/
theorem C11_draft_true_returns_record (now : Time)
    (timeParse : String → Time × Option ParseError)
    (cfm : ContentFrontMatter) (d fm : FrontMatter)
    (hDraft : cfm.FrontMatter.lookup "draft" = some (Value.bool true))
    (hOther : parseFrontMatter now timeParse (eraseKey "draft" cfm, none) d
      = some (some fm, none)) :
    getBool cfm "draft" = (true, none)
    ∧ parseFrontMatter now timeParse (cfm, none) d = some (some fm, none) := by
  refine ⟨by simp [getBool, hDraft], ?_⟩
  rw [← hOther]
  exact (parseFrontMatter_congr_off_draft now timeParse cfm (eraseKey "draft" cfm) d
    (fun k hk => lookup_eraseKey_other "draft" k cfm hk)).symm

/-- Witness of C11 on a complete front matter with `draft: true`. -/
theorem C11_draft_true_returns_record_witness :
    getBool sampleComplete "draft" = (true, none)
    ∧ parseFrontMatter sampleNow sampleTimeParse (sampleComplete, none) sampleDefaults
      = some (some ⟨"Hello", "Alice", "news", ["go", "hugo"], ⟨1577836800⟩⟩, none) :=
  C11_draft_true_returns_record sampleNow sampleTimeParse sampleComplete sampleDefaults
    ⟨"Hello", "Alice", "news", ["go", "hugo"], ⟨1577836800⟩⟩ rfl rfl

/-- C12: when `parseFrontMatter` returns a record, its Category is the first non-empty
element of categories if that is a sequence of texts with a non-empty element, and the
Category of the default bundle if the key is absent, the value is not a sequence, the
sequence holds an element that is not a text, or it holds no non-empty element; the returned
error is nil, and the categories value cannot cause one: a mapping that differs at the
categories key only is given a record too. -/
theorem C12_category_or_default (now : Time) (timeParse : String → Time × Option ParseError)
    (cfm : ContentFrontMatter) (d fm : FrontMatter) (e : Option Error)
    (h : parseFrontMatter now timeParse (cfm, none) d = some (some fm, e)) :
    (∀ (strs : List String) (c : String),
        cfm.FrontMatter.lookup fmCategories = some (Value.arr (strs.map Value.str)) →
        strs.find? (fun s => decide (s ≠ "")) = some c → fm.Category = c)
    ∧ (cfm.FrontMatter.lookup fmCategories = none → fm.Category = d.Category)
    ∧ (∀ v, cfm.FrontMatter.lookup fmCategories = some v → (∀ items, v ≠ Value.arr items) →
        fm.Category = d.Category)
    ∧ (∀ items, cfm.FrontMatter.lookup fmCategories = some (Value.arr items) →
        (∃ v ∈ items, v.isStr = false) → fm.Category = d.Category)
    ∧ (∀ strs : List String,
        cfm.FrontMatter.lookup fmCategories = some (Value.arr (strs.map Value.str)) →
        (∀ s ∈ strs, s = "") → fm.Category = d.Category)
    ∧ e = none
    ∧ (∀ cfm' : ContentFrontMatter,
        (∀ k, k ≠ fmCategories → cfm'.FrontMatter.lookup k = cfm.FrontMatter.lookup k) →
        ∃ fm', parseFrontMatter now timeParse (cfm', none) d = some (some fm', none)) := by
  rcases parseFrontMatter_cases now timeParse cfm d with ⟨err, -, hp⟩ | ⟨a, ha, hp⟩
  · rw [hp] at h
    simp at h
  · rw [hp] at h
    simp only [Option.some.injEq, Prod.mk.injEq] at h
    obtain ⟨hfm, he⟩ := h
    have hc : fm.Category = categoryOf cfm d := by rw [← hfm]
    rw [hc]
    refine ⟨?_, ?_, ?_, ?_, ?_, he.symm, ?_⟩
    · intro strs c hl hfind
      obtain ⟨rest, hrest⟩ := nonEmpty_of_find strs c hfind
      simp [categoryOf, getAllStringItems_texts cfm _ _ hl, hrest]
    · intro hl
      simp [categoryOf, getAllStringItems_absent cfm _ hl]
    · intro v hl hv
      cases v with
      | arr items => exact absurd rfl (hv items)
      | str s => simp [categoryOf, getAllStringItems, hl]
      | bool b => simp [categoryOf, getAllStringItems, hl]
      | int n => simp [categoryOf, getAllStringItems, hl]
      | time t => simp [categoryOf, getAllStringItems, hl]
      | null => simp [categoryOf, getAllStringItems, hl]
    · rintro items hl ⟨v, hv, hs⟩
      obtain ⟨w, hw, -⟩ := firstNonText_of_mem items v hv hs
      simp [categoryOf, getAllStringItems_nonText cfm _ items w hl hw]
    · intro strs hl hall
      simp [categoryOf, getAllStringItems_texts cfm _ _ hl, nonEmpty_eq_nil strs hall]
    · intro cfm' hk
      rw [parseFrontMatter_eq, authorOf_congr cfm cfm' d (hk fmAuthor (by decide)), ha]
      exact ⟨_, rfl⟩

/-- Witness of C12: categories `["", "news", "misc"]` give `"news"`, and a scalar
categories value gives the default category. -/
theorem C12_category_or_default_witness :
    (parseFrontMatter sampleNow sampleTimeParse (sampleComplete, none) sampleDefaults
        = some (some ⟨"Hello", "Alice", "news", ["go", "hugo"], ⟨1577836800⟩⟩, none)
      ∧ (⟨"Hello", "Alice", "news", ["go", "hugo"], ⟨1577836800⟩⟩ : FrontMatter).Category
        = "news")
    ∧ (parseFrontMatter sampleNow sampleTimeParse (sampleScalars, none) sampleDefaults
        = some (some ⟨"Hello", "Default author", "Default category", ["default"],
            ⟨946684800⟩⟩, none)
      ∧ (⟨"Hello", "Default author", "Default category", ["default"], ⟨946684800⟩⟩
        : FrontMatter).Category = sampleDefaults.Category) :=
  ⟨⟨rfl, (C12_category_or_default sampleNow sampleTimeParse sampleComplete sampleDefaults
      ⟨"Hello", "Alice", "news", ["go", "hugo"], ⟨1577836800⟩⟩ none rfl).1
      ["", "news", "misc"] "news" rfl rfl⟩,
    ⟨rfl, (C12_category_or_default sampleNow sampleTimeParse sampleScalars sampleDefaults
      ⟨"Hello", "Default author", "Default category", ["default"], ⟨946684800⟩⟩ none rfl).2.2.1
      (Value.str "news") rfl (fun _ hv => by cases hv)⟩⟩

/-- C13: when the author value is not a sequence, `parseFrontMatter` returns a record and no
error; its Author is the author value if that is a non-empty text, and the Author of the
default bundle if the key is absent, holds the empty text or holds a value that is not a
text. -/
theorem C13_author_scalar_or_default (now : Time)
    (timeParse : String → Time × Option ParseError)
    (cfm : ContentFrontMatter) (d : FrontMatter)
    (hNotSeq : ∀ items, cfm.FrontMatter.lookup fmAuthor ≠ some (Value.arr items)) :
    ∃ fm, parseFrontMatter now timeParse (cfm, none) d = some (some fm, none)
      ∧ (∀ a, cfm.FrontMatter.lookup fmAuthor = some (Value.str a) → a ≠ "" → fm.Author = a)
      ∧ (cfm.FrontMatter.lookup fmAuthor = none
          ∨ cfm.FrontMatter.lookup fmAuthor = some (Value.str "")
          ∨ (∃ v, cfm.FrontMatter.lookup fmAuthor = some v ∧ v.isStr = false)
          → fm.Author = d.Author) := by
  have hArr : isArray cfm fmAuthor = false := by
    unfold isArray
    split
    · rename_i items hl
      exact absurd hl (hNotSeq items)
    · rfl
  rw [parseFrontMatter_eq]
  unfold authorOf
  simp only [hArr]
  cases hl : cfm.FrontMatter.lookup fmAuthor with
  | none => simp [getString, hl]
  | some v =>
    cases v with
    | str s => by_cases hs : s = "" <;> simp [getString, hl, hs, Value.isStr]
    | bool b => simp [getString, hl]
    | int n => simp [getString, hl]
    | time t => simp [getString, hl]
    | arr a => exact absurd hl (hNotSeq a)
    | null => simp [getString, hl]

/-- Witness of C13: the scalar author `"Alice"` is stored, and a numeric author gives the
default author. -/
theorem C13_author_scalar_or_default_witness :
    (∃ fm, parseFrontMatter sampleNow sampleTimeParse (sampleNoTitle, none) sampleDefaults
        = some (some fm, none) ∧ fm.Author = "Alice")
    ∧ (∃ fm, parseFrontMatter sampleNow sampleTimeParse (sampleScalars, none) sampleDefaults
        = some (some fm, none) ∧ fm.Author = sampleDefaults.Author) :=
  ⟨(C13_author_scalar_or_default sampleNow sampleTimeParse sampleNoTitle sampleDefaults
      (fun _ hv => by cases hv)).imp fun _ hfm => ⟨hfm.1, hfm.2.1 "Alice" rfl (by decide)⟩,
    (C13_author_scalar_or_default sampleNow sampleTimeParse sampleScalars sampleDefaults
      (fun _ hv => by cases hv)).imp fun _ hfm =>
        ⟨hfm.1, hfm.2.2 (Or.inr (Or.inr ⟨Value.int 7, rfl, rfl⟩))⟩⟩

/-- C14: `getContentDate` returns what `getTime` returns for the first key `k` that is
present among date, lastmod and publishDate: the InvalidType error of `k` if its value is
neither a timestamp nor a text, the error of `time.Parse` if it is a text that cannot be
read; the keys after `k` are not consulted, so that two mappings with the same first present
key and value get the same result. -/
theorem C14_date_search_ends_at_first_present (now : Time)
    (timeParse : String → Time × Option ParseError)
    (cfm : ContentFrontMatter) (k : String) (v : Value)
    (hFirst : firstDateValue cfm = some (k, v)) :
    getContentDate now timeParse cfm = getTime now timeParse cfm k
    ∧ (v.isStr = false → v.isTime = false →
        getContentDate now timeParse cfm
          = (now, some (NewFMInvalidTypeError k "time.Time or string" v)))
    ∧ (∀ s r e, v = Value.str s → timeParse s = (r, some e) →
        getContentDate now timeParse cfm = (r, some (Error.TimeParseError e)))
    ∧ (∀ cfm' : ContentFrontMatter, firstDateValue cfm' = some (k, v) →
        getContentDate now timeParse cfm' = getContentDate now timeParse cfm) := by
  obtain ⟨hget, hk⟩ := getContentDate_of_firstPresent now timeParse cfm k v hFirst
  refine ⟨hget, ?_, ?_, ?_⟩
  · intro hs ht
    rw [hget]
    cases v <;> simp [Value.isStr, Value.isTime] at hs ht <;> simp [getTime, hk]
  · intro s r e hv hp
    subst hv
    rw [hget]
    simp [getTime, hk, hp]
  · intro cfm' hFirst'
    obtain ⟨hget', hk'⟩ := getContentDate_of_firstPresent now timeParse cfm' k v hFirst'
    rw [hget, hget']
    exact getTime_congr now timeParse cfm cfm' k (hk'.trans hk.symm)

/-- Witness of C14: with `date: true` and with an unreadable `date` text the search ends at
`date`, although `lastmod` holds a timestamp. -/
theorem C14_date_search_ends_at_first_present_witness :
    getContentDate sampleNow sampleTimeParse sampleDateBool
      = (sampleNow, some (NewFMInvalidTypeError "date" "time.Time or string" (Value.bool true)))
    ∧ getContentDate sampleNow sampleTimeParse sampleDateUnparseable
      = (⟨0⟩, some (Error.TimeParseError ⟨"cannot parse"⟩)) :=
  ⟨(C14_date_search_ends_at_first_present sampleNow sampleTimeParse sampleDateBool
      "date" (Value.bool true) rfl).2.1 rfl rfl,
    (C14_date_search_ends_at_first_present sampleNow sampleTimeParse sampleDateUnparseable
      "date" (Value.str "yesterday") rfl).2.2.1 "yesterday" ⟨0⟩ ⟨"cannot parse"⟩ rfl rfl⟩

/-- C15: when none of the keys date, lastmod and publishDate is present, `getContentDate`
returns the clock value and the NotExist error of `"date, lastmod, publishDate"`. -/
theorem C15_no_date_key (now : Time) (timeParse : String → Time × Option ParseError)
    (cfm : ContentFrontMatter)
    (hDate : cfm.FrontMatter.lookup fmDate = none)
    (hLastmod : cfm.FrontMatter.lookup fmLastmod = none)
    (hPublish : cfm.FrontMatter.lookup fmPublishDate = none) :
    getContentDate now timeParse cfm
      = (now, some (NewFMNotExistError "date, lastmod, publishDate")) :=
  getContentDate_of_absent now timeParse cfm hDate hLastmod hPublish

/-- Witness of C15 on a front matter without a date key. -/
theorem C15_no_date_key_witness :
    getContentDate sampleNow sampleTimeParse sampleNoTitle
      = (sampleNow, some (NewFMNotExistError "date, lastmod, publishDate")) :=
  C15_no_date_key sampleNow sampleTimeParse sampleNoTitle rfl rfl rfl

/-- C16: after a successful tokenizer parse, `parseFrontMatter` returns an error if and only
if the author value is a sequence that holds an element that is not a text or holds no
non-empty text; it returns a record otherwise; and whether it returns an error is the same
for two mappings with the same author value, whatever their other keys hold. -/
theorem C16_error_iff_author_sequence_unusable (now : Time)
    (timeParse : String → Time × Option ParseError)
    (cfm : ContentFrontMatter) (d : FrontMatter) :
    ((∃ err, parseFrontMatter now timeParse (cfm, none) d = some (none, some err)) ↔
      ∃ items, cfm.FrontMatter.lookup fmAuthor = some (Value.arr items)
        ∧ ((∃ v ∈ items, v.isStr = false) ∨ (∀ s, Value.str s ∈ items → s = "")))
    ∧ ((∃ err, parseFrontMatter now timeParse (cfm, none) d = some (none, some err))
        ∨ (∃ fm, parseFrontMatter now timeParse (cfm, none) d = some (some fm, none)))
    ∧ (∀ cfm' : ContentFrontMatter,
        cfm'.FrontMatter.lookup fmAuthor = cfm.FrontMatter.lookup fmAuthor →
        ((∃ err, parseFrontMatter now timeParse (cfm', none) d = some (none, some err)) ↔
          (∃ err, parseFrontMatter now timeParse (cfm, none) d = some (none, some err)))) := by
  have key : ∀ c : ContentFrontMatter,
      (∃ err, parseFrontMatter now timeParse (c, none) d = some (none, some err))
        ↔ ∃ err, authorOf c d = Except.error err := by
    intro c
    rcases parseFrontMatter_cases now timeParse c d with ⟨err, ha, hp⟩ | ⟨a, ha, hp⟩
    · exact ⟨fun _ => ⟨err, ha⟩, fun _ => ⟨err, hp⟩⟩
    · constructor
      · rintro ⟨err, h⟩
        rw [hp] at h
        simp at h
      · rintro ⟨err, h⟩
        rw [ha] at h
        cases h
  refine ⟨(key cfm).trans (authorOf_error_iff cfm d), ?_, ?_⟩
  · rcases parseFrontMatter_cases now timeParse cfm d with ⟨err, -, hp⟩ | ⟨a, -, hp⟩
    · exact Or.inl ⟨err, hp⟩
    · exact Or.inr ⟨_, hp⟩
  · intro cfm' hA
    rw [key cfm', key cfm, authorOf_congr cfm cfm' d hA]

/-- Witness of C16: the author sequence `["Alice", 5]` gives an error, and a front matter
whose tags are `["a", 5]` and whose author is absent gives none. -/
theorem C16_error_iff_author_sequence_unusable_witness :
    (∃ err, parseFrontMatter sampleNow sampleTimeParse (sampleAuthorsMixed, none)
        sampleDefaults = some (none, some err))
    ∧ ¬ (∃ items, sampleTagsMixed.FrontMatter.lookup fmAuthor = some (Value.arr items)
        ∧ ((∃ v ∈ items, v.isStr = false) ∨ (∀ s, Value.str s ∈ items → s = ""))) :=
  ⟨(C16_error_iff_author_sequence_unusable sampleNow sampleTimeParse sampleAuthorsMixed
      sampleDefaults).1.mpr
      ⟨[Value.str "Alice", Value.int 5], rfl, Or.inl ⟨Value.int 5, by simp, rfl⟩⟩,
    fun hc => by
      obtain ⟨err, herr⟩ := (C16_error_iff_author_sequence_unusable sampleNow sampleTimeParse
        sampleTagsMixed sampleDefaults).1.mpr hc
      cases herr⟩

/-- C17: `getBool` returns false whenever it returns an error, so the draft branch is never
taken: two mappings that differ at the draft key only get the same result, and the result
is never the draft error. -/
theorem C17_draft_has_no_influence (now : Time)
    (timeParse : String → Time × Option ParseError)
    (cfm cfm' : ContentFrontMatter) (d : FrontMatter)
    (hSame : ∀ k, k ≠ "draft" → cfm'.FrontMatter.lookup k = cfm.FrontMatter.lookup k) :
    (∀ (c : ContentFrontMatter) (k : String) (b : Bool) (err : Error),
        getBool c k = (b, some err) → b = false)
    ∧ parseFrontMatter now timeParse (cfm', none) d
        = parseFrontMatter now timeParse (cfm, none) d
    ∧ parseFrontMatter now timeParse (cfm, none) d ≠ some (none, some draftError) := by
  refine ⟨?_, parseFrontMatter_congr_off_draft now timeParse cfm cfm' d hSame, ?_⟩
  · intro c k b err h
    cases b with
    | false => rfl
    | true => exact absurd h (getBool_err_false c k err)
  · intro h
    rcases parseFrontMatter_cases now timeParse cfm d with ⟨err, ha, hp⟩ | ⟨a, -, hp⟩
    · rw [hp] at h
      simp only [Option.some.injEq, Prod.mk.injEq, true_and] at h
      subst h
      rcases authorOf_error_kind cfm d _ ha with h1 | ⟨ex, v, h1⟩
      · simp [draftError, NewFMNotExistError] at h1
      · simp [draftError, NewFMInvalidTypeError] at h1
    · rw [hp] at h
      simp at h

/-- Witness of C17: the complete front matter with `draft: true` and the same front matter
without its draft key get the same result. -/
theorem C17_draft_has_no_influence_witness :
    parseFrontMatter sampleNow sampleTimeParse (eraseKey "draft" sampleComplete, none)
        sampleDefaults
      = parseFrontMatter sampleNow sampleTimeParse (sampleComplete, none) sampleDefaults
    ∧ parseFrontMatter sampleNow sampleTimeParse (sampleComplete, none) sampleDefaults
      ≠ some (none, some draftError) :=
  (C17_draft_has_no_influence sampleNow sampleTimeParse sampleComplete
    (eraseKey "draft" sampleComplete) sampleDefaults
    (fun k hk => lookup_eraseKey_other "draft" k sampleComplete hk)).2

/-- C18: the result of `parseFrontMatter` is the same at two clock values; `getTime` and
`getContentDate` return a clock-independent value whenever they return no error; and when
`getContentDate` returns an error the Date of the record is the Date of the default bundle. -/
theorem C18_clock_independence (now now' : Time)
    (timeParse : String → Time × Option ParseError)
    (parsed : ContentFrontMatter × Option Error) (d : FrontMatter) :
    parseFrontMatter now timeParse parsed d = parseFrontMatter now' timeParse parsed d
    ∧ (∀ (cfm : ContentFrontMatter) (k : String), (getTime now timeParse cfm k).2 = none →
        getTime now' timeParse cfm k = getTime now timeParse cfm k)
    ∧ (∀ cfm : ContentFrontMatter, (getContentDate now timeParse cfm).2 = none →
        getContentDate now' timeParse cfm = getContentDate now timeParse cfm)
    ∧ (∀ (cfm : ContentFrontMatter) (fm : FrontMatter) (e : Option Error),
        parseFrontMatter now timeParse (cfm, none) d = some (some fm, e) →
        (getContentDate now timeParse cfm).2 ≠ none → fm.Date = d.Date) := by
  refine ⟨?_, fun cfm k => (getTime_clock now now' timeParse cfm k).2,
    fun cfm => (getContentDate_clock now now' timeParse cfm).2, ?_⟩
  · obtain ⟨cfm, _ | err⟩ := parsed
    · rw [parseFrontMatter_eq, parseFrontMatter_eq, dateOf_clock now now' timeParse cfm d]
    · rfl
  · intro cfm fm e h herr
    rcases parseFrontMatter_cases now timeParse cfm d with ⟨err, -, hp⟩ | ⟨a, -, hp⟩
    · rw [hp] at h
      simp at h
    · rw [hp] at h
      simp only [Option.some.injEq, Prod.mk.injEq] at h
      rw [← h.1]
      show dateOf now timeParse cfm d = d.Date
      unfold dateOf
      generalize getContentDate now timeParse cfm = r at herr
      obtain ⟨t, _ | e'⟩ := r
      · exact absurd rfl herr
      · rfl

/-- Witness of C18 on a front matter without a date key, at two clock values. -/
theorem C18_clock_independence_witness :
    parseFrontMatter sampleNow sampleTimeParse (sampleNoTitle, none) sampleDefaults
      = parseFrontMatter sampleLater sampleTimeParse (sampleNoTitle, none) sampleDefaults
    ∧ (⟨"Default title", "Alice", "Default category", ["go"], ⟨946684800⟩⟩ : FrontMatter).Date
      = sampleDefaults.Date :=
  have hc := C18_clock_independence sampleNow sampleLater sampleTimeParse
    (sampleNoTitle, none) sampleDefaults
  ⟨hc.1, hc.2.2.2 sampleNoTitle
    ⟨"Default title", "Alice", "Default category", ["go"], ⟨946684800⟩⟩ none rfl
    (fun h => by cases h)⟩

/-- C19: whenever `getAllStringItems` returns no error, the list it returns is non-empty and
holds non-empty texts only; hence the index `arr[0]` of `getFirstStringItem` is in bounds (no
panic), and an item that `getFirstStringItem` returns without error is a non-empty text. -/
theorem C19_index_safety (cfm : ContentFrontMatter) (fmKey : String) :
    (∀ arr, getAllStringItems cfm fmKey = (arr, none) → arr ≠ [] ∧ ∀ s ∈ arr, s ≠ "")
    ∧ getFirstStringItem cfm fmKey ≠ none
    ∧ (∀ s, getFirstStringItem cfm fmKey = some (s, none) → s ≠ "") := by
  refine ⟨fun arr h => ⟨getAllStringItems_ok_ne_nil cfm fmKey arr h,
    getAllStringItems_ok_ne cfm fmKey arr h⟩, ?_, ?_⟩
  · rw [getFirstStringItem_eq]
    simp
  · intro s h
    rw [getFirstStringItem_eq] at h
    rcases hg : getAllStringItems cfm fmKey with ⟨arr, _ | err⟩
    · rw [hg] at h
      simp only [Option.some.injEq, Prod.mk.injEq, and_true] at h
      have hne := getAllStringItems_ok_ne_nil cfm fmKey arr hg
      have hall := getAllStringItems_ok_ne cfm fmKey arr hg
      cases arr with
      | nil => exact absurd rfl hne
      | cons a rest =>
        simp only [List.headD_cons] at h
        rw [← h]
        exact hall a (List.mem_cons_self _ _)
    · rw [hg] at h
      simp at h

/-- Witness of C19 on the categories `["", "news", "misc"]`. -/
theorem C19_index_safety_witness :
    (([ "news", "misc"] : List String) ≠ [] ∧ ∀ s ∈ ([ "news", "misc"] : List String), s ≠ "")
    ∧ getFirstStringItem sampleComplete fmCategories ≠ none
    ∧ ("news" : String) ≠ "" :=
  have hc := C19_index_safety sampleComplete fmCategories
  ⟨hc.1 ["news", "misc"] rfl, hc.2.1, hc.2.2 "news" rfl⟩

end Hugo
